import Mathlib

/-!
Verification development for the redpanda-operator repository.

Part A embeds the pvcunbinder controller (package pvcunbinder): a
Kubernetes controller that remediates Pods stuck in Pending because of
volume node affinity, by patching PersistentVolumes to a Retain reclaim
policy, deleting the bound PersistentVolumeClaims and finally the Pod.

Part B embeds the RedpandaReconciler (package redpanda): readiness
aggregation, de-fluxed chart sync with garbage collection, and the
top-level reconcile driver that advances the observed generation.

The embedding is shallow: Kubernetes objects become Lean structures, the
store becomes explicit state, each controller pass becomes a pure
function from a state snapshot to a new state plus a trace of store
operations.  Store writes never fail in the model (no concurrent
mutation), so optimistic-concurrency preconditions are always satisfied;
fallible external calls (list, render, admin health) are supplied as
Except values in an environment record.  Go maps keyed by object key are
modelled as association lists deduplicated on first occurrence.
-/

/-- Namespaced object key, mirroring client.ObjectKey. -/
structure ObjectKey where
  ns : String
  name : String
deriving DecidableEq

/-- metav1.OwnerReference, restricted to the fields the controller reads. -/
structure OwnerReference where
  apiVersion : String
  kind : String
  controller : Option Bool
deriving DecidableEq

/-- corev1.PodCondition, restricted to the fields the controller reads. -/
structure PodCondition where
  condType : String
  status : String
  reason : String
  message : String
  lastTransitionTime : Int
deriving DecidableEq

/-- One entry of pod.Spec.Volumes: an optional PersistentVolumeClaim source
with its claim name. -/
structure PodVolume where
  persistentVolumeClaim : Option String
deriving DecidableEq

/-- corev1.Pod, restricted to the fields the pvcunbinder controller reads. -/
structure Pod where
  name : String
  ns : String
  labels : List (String × String)
  ownerReferences : List OwnerReference
  phase : String
  conditions : List PodCondition
  volumes : List PodVolume
deriving DecidableEq

/-- corev1.PersistentVolumeClaim, restricted to the fields read:
its key and .Spec.VolumeName (empty string when unbound). -/
structure PVC where
  key : ObjectKey
  volumeName : String
deriving DecidableEq

/-- corev1.PersistentVolume, restricted to the fields read: name,
.Spec.ClaimRef (as a key), presence of .Spec.NodeAffinity, presence of
.Spec.HostPath and .Spec.Local, and the reclaim policy. -/
structure PV where
  name : String
  claimRef : Option ObjectKey
  hasNodeAffinity : Bool
  hostPath : Bool
  localVolume : Bool
  reclaimPolicy : String
deriving DecidableEq

/-- Snapshot of the store objects one pvcunbinder pass touches: the Pod
under reconciliation (none when deleted or not found), all PVCs in its
namespace, and all PVs. -/
structure ClusterState where
  pod : Option Pod
  pvcs : List PVC
  pvs : List PV
deriving DecidableEq

/-- Store operations a pass performs, in order.  ensureRetain covers the
ensureRetainPolicy call (which either observes Retain or patches it);
deletePVC and deletePod carry UID plus resource-version preconditions in
the source, always satisfied in this single-writer model. -/
inductive StoreOp where
  | ensureRetain (pvName : String) (claimKey : ObjectKey)
  | deletePVC (key : ObjectKey)
  | clearClaimRef (pvName : String)
  | deletePod (name : String)
deriving DecidableEq

/-- Controller configuration: Timeout, optional label Selector, optional
Filter callback (none result = callback error) and AllowRebinding. -/
structure UnbinderConfig where
  timeout : Int
  selector : Option (List (String × String) → Bool)
  filter : Option (Pod → Option Bool)
  allowRebinding : Bool

/-- pvcUnbinderPredicate: the Pod is controlled by a StatefulSet owner
reference and its phase is Pending. -/
def pvcUnbinderPredicate (pod : Pod) : Bool :=
  let stsManaged := pod.ownerReferences.any fun ref =>
    ref.apiVersion == "apps/v1" && ref.kind == "StatefulSet" && ref.controller.getD false
  let isPending := pod.phase == "Pending"
  stsManaged && isPending

/-- ASCII digit test for the regex character class d. -/
def isAsciiDigit (c : Char) : Bool :=
  decide ('0' ≤ c) && decide (c ≤ '9')

/-- Consume a maximal run of digits, for the d-star part of the regex. -/
def dropDigits : List Char → List Char
  | [] => []
  | c :: rest => if isAsciiDigit c then dropDigits rest else c :: rest

/-- Anchored match of the first regex alternative
0-slash-[1-9]-digits-space nodes are available. -/
def noNodesAvailableAtStart : List Char → Bool
  | '0' :: '/' :: c :: rest =>
    (decide ('1' ≤ c) && decide (c ≤ '9')) &&
      (" nodes are available".toList.isPrefixOf (dropDigits rest))
  | _ => false

/-- Unanchored substring search, the semantics of the second, unanchored
regex alternative under MatchString. -/
def containsPattern (pat : List Char) : List Char → Bool
  | [] => pat.isEmpty
  | c :: rest => pat.isPrefixOf (c :: rest) || containsPattern pat rest

/-- schedulingFailureRE.MatchString: either the message starts with
0-slash-[1-9]-digits nodes are available, or it contains the substring
volume node affinity anywhere. -/
def schedulingFailureMatch (msg : String) : Bool :=
  noNodesAvailableAtStart msg.toList ||
    containsPattern ("volume node affinity".toList) msg.toList

/-- The condition searched for by ShouldRemediate: type PodScheduled,
status False, reason Unschedulable. -/
def schedCondMatch (cond : PodCondition) : Bool :=
  cond.condType == "PodScheduled" && cond.status == "False" &&
    cond.reason == "Unschedulable"

/-- Controller.ShouldRemediate.  Returns (should-remediate, requeue-after
delay).  now and times are integers (nanoseconds in the source). -/
def shouldRemediate (cfg : UnbinderConfig) (now : Int) (pod : Pod) : Bool × Int :=
  let selOk := match cfg.selector with
    | none => true
    | some sel => sel pod.labels
  if selOk = false then (false, 0)
  else
    let filterOk := match cfg.filter with
      | none => true
      | some f => match f pod with
        | none => false
        | some keep => keep
    if filterOk = false then (false, 0)
    else
      match pod.conditions.find? schedCondMatch with
      | none => (false, 0)
      | some cond =>
        if pvcUnbinderPredicate pod = false then (false, 0)
        else if schedulingFailureMatch cond.message = false then (false, 0)
        else
          let delta := cfg.timeout - (now - cond.lastTransitionTime)
          if 0 < delta then (true, delta) else (true, 0)

/-- StsPVCs: keys of PVCs attached to the Pod whose claim name ends with
the Pod name (the StatefulSet naming heuristic). -/
def StsPVCs (pod : Pod) : List ObjectKey :=
  pod.volumes.filterMap fun vol =>
    match vol.persistentVolumeClaim with
    | none => none
    | some claimName =>
      if (pod.name.toList).isSuffixOf claimName.toList then
        some ⟨pod.ns, claimName⟩
      else none

/-- First-occurrence deduplication of candidate keys, mirroring insertion
into the Go map pvcByKey (later inserts of the same key store the same
fetched value). -/
def dedupKeysAux (seen : List ObjectKey) : List ObjectKey → List ObjectKey
  | [] => []
  | k :: rest =>
    if seen.any (fun s => s == k) then dedupKeysAux seen rest
    else k :: dedupKeysAux (k :: seen) rest

/-- Candidate PVC keys of a pass: StsPVCs deduplicated. -/
def candidateKeys (pod : Pod) : List ObjectKey :=
  dedupKeysAux [] (StsPVCs pod)

/-- Client.Get on a PVC key over the snapshot: none models a not-found
error (recorded as a nil map entry in the source). -/
def fetchPVC (pvcs : List PVC) (k : ObjectKey) : Option PVC :=
  pvcs.find? fun p => p.key == k

/-- Step 1 filter of Reconcile: walk the PV list; skip PVs with no
ClaimRef or whose claim is not a candidate; a PV bound to a candidate but
lacking NodeAffinity or HostPath/Local backing removes its candidate from
the map; remaining PVs are collected.  Returns (kept PVs, surviving
candidate entries). -/
def filterPVs : List PV → List (ObjectKey × Option PVC) →
    List PV × List (ObjectKey × Option PVC)
  | [], byKey => ([], byKey)
  | pv :: rest, byKey =>
    match pv.claimRef with
    | none => filterPVs rest byKey
    | some key =>
      if byKey.all (fun e => !(e.1 == key)) then
        filterPVs rest byKey
      else if !pv.hasNodeAffinity || (!pv.hostPath && !pv.localVolume) then
        filterPVs rest (byKey.filter (fun e => !(e.1 == key)))
      else
        let res := filterPVs rest byKey
        (pv :: res.1, res.2)

/-- State effect of Controller.ensureRetainPolicy on one PV name: the
reclaim policy becomes Retain (a no-op patch when already Retain). -/
def setRetain (pvs : List PV) (pvName : String) : List PV :=
  pvs.map fun pv =>
    if pv.name == pvName then { pv with reclaimPolicy := "Retain" } else pv

/-- Step 2 of Reconcile: ensureRetainPolicy over every kept PV, in order. -/
def ensureRetainAll (pvs : List PV) : List PV → List PV
  | [] => pvs
  | t :: rest => ensureRetainAll (setRetain pvs t.name) rest

/-- Step 3 of Reconcile: delete every candidate PVC that was fetched and
is bound (non-empty volume name); the deleted entry becomes nil.  Returns
(updated entries, updated PVC store, delete operations). -/
def deleteBoundPVCs : List (ObjectKey × Option PVC) → List PVC →
    List (ObjectKey × Option PVC) × List PVC × List StoreOp
  | [], pvcs => ([], pvcs, [])
  | (key, entry) :: rest, pvcs =>
    match entry with
    | none =>
      let res := deleteBoundPVCs rest pvcs
      ((key, none) :: res.1, res.2.1, res.2.2)
    | some pvc =>
      if pvc.volumeName == "" then
        let res := deleteBoundPVCs rest pvcs
        ((key, some pvc) :: res.1, res.2.1, res.2.2)
      else
        let res := deleteBoundPVCs rest (pvcs.filter (fun p => !(p.key == key)))
        ((key, none) :: res.1, res.2.1, StoreOp.deletePVC key :: res.2.2)

/-- State effect of clearing the ClaimRef of one PV name. -/
def clearClaimRefState (pvs : List PV) (pvName : String) : List PV :=
  pvs.map fun pv =>
    if pv.name == pvName then { pv with claimRef := none } else pv

/-- Step 4 of Reconcile: maybeRecyclePersistentVolume over every kept PV.
A PV with neither HostPath nor Local backing aborts the pass with an
error; with AllowRebinding false nothing is written; otherwise a bound
ClaimRef is cleared (without precondition). -/
def recyclePVs (allowRebinding : Bool) (pvs : List PV) :
    List PV → List PV × List StoreOp × Option String
  | [] => (pvs, [], none)
  | t :: rest =>
    if !t.hostPath && !t.localVolume then
      (pvs, [], some ("must specify HostPath or Local for recycling"))
    else if allowRebinding = false then
      recyclePVs allowRebinding pvs rest
    else
      match t.claimRef with
      | none => recyclePVs allowRebinding pvs rest
      | some _ =>
        let res := recyclePVs allowRebinding (clearClaimRefState pvs t.name) rest
        (res.1, StoreOp.clearClaimRef t.name :: res.2.1, res.2.2)

/-- Result of one pvcunbinder Reconcile pass: final snapshot, ordered
trace of store writes, and the error aborting the pass, if any. -/
structure PassResult where
  state : ClusterState
  trace : List StoreOp
  err : Option String
deriving DecidableEq

/-- The map pvcByKey after the fetch loop: one entry per candidate key,
nil (none) for not-found. -/
def passByKey (st : ClusterState) (pod : Pod) : List (ObjectKey × Option PVC) :=
  (candidateKeys pod).map fun k => (k, fetchPVC st.pvcs k)

/-- The PV filter step over the fetched snapshot. -/
def passFP (st : ClusterState) (pod : Pod) :
    List PV × List (ObjectKey × Option PVC) :=
  filterPVs st.pvs (passByKey st pod)

/-- The ensureRetainPolicy calls of step 2, as trace operations. -/
def passRetainOps (st : ClusterState) (pod : Pod) : List StoreOp :=
  (passFP st pod).1.map fun pv =>
    StoreOp.ensureRetain pv.name (pv.claimRef.getD ⟨"", ""⟩)

/-- Step 3 applied to the filtered candidate entries and the PVC store. -/
def passDel (st : ClusterState) (pod : Pod) :
    List (ObjectKey × Option PVC) × List PVC × List StoreOp :=
  deleteBoundPVCs (passFP st pod).2 st.pvcs

/-- Step 4 applied to the retained PV store. -/
def passRecy (cfg : UnbinderConfig) (st : ClusterState) (pod : Pod) :
    List PV × List StoreOp × Option String :=
  recyclePVs cfg.allowRebinding (ensureRetainAll st.pvs (passFP st pod).1)
    (passFP st pod).1

/-- The mutation sequence of Controller.Reconcile after the eligibility
gate and the non-empty candidate check: candidate fetch, PV filter,
retain patches, PVC deletions, PV recycling, and Pod deletion only when
some candidate entry is nil (missing). -/
def passTail (cfg : UnbinderConfig) (st : ClusterState) (pod : Pod) :
    PassResult :=
  match (passRecy cfg st pod).2.2 with
  | some e =>
    ⟨⟨st.pod, (passDel st pod).2.1, (passRecy cfg st pod).1⟩,
      passRetainOps st pod ++ (passDel st pod).2.2 ++ (passRecy cfg st pod).2.1,
      some e⟩
  | none =>
    if (passDel st pod).1.any (fun e => e.2.isNone) then
      ⟨⟨none, (passDel st pod).2.1, (passRecy cfg st pod).1⟩,
        passRetainOps st pod ++ (passDel st pod).2.2 ++
          (passRecy cfg st pod).2.1 ++ [StoreOp.deletePod pod.name],
        none⟩
    else
      ⟨⟨st.pod, (passDel st pod).2.1, (passRecy cfg st pod).1⟩,
        passRetainOps st pod ++ (passDel st pod).2.2 ++ (passRecy cfg st pod).2.1,
        none⟩

/-- Controller.Reconcile as a pure pass over the snapshot.  Mirrors the
source order: not-found exit, eligibility gate, empty-candidate exit,
then the mutation sequence of passTail. -/
def reconcileUnbinder (cfg : UnbinderConfig) (now : Int) (st : ClusterState) :
    PassResult :=
  match st.pod with
  | none => ⟨st, [], none⟩
  | some pod =>
    let sr := shouldRemediate cfg now pod
    if sr.1 = false ∨ 0 < sr.2 then ⟨st, [], none⟩
    else
      if candidateKeys pod = [] then ⟨st, [], none⟩
      else passTail cfg st pod

/-- The state reached by one pass. -/
def runPass (cfg : UnbinderConfig) (now : Int) (st : ClusterState) : ClusterState :=
  (reconcileUnbinder cfg now st).state

/-! ### Eligibility-gate lemmas and claims C6, C7 -/

/-- The gates of ShouldRemediate before the timeout computation: selector
matched, filter passed, the PodScheduled/False/Unschedulable condition is
found, the pre-queue predicate still holds, and the condition message
matches the scheduling-failure regex. -/
def gatesPass (cfg : UnbinderConfig) (pod : Pod) (cond : PodCondition) : Prop :=
  (match cfg.selector with
    | none => true
    | some sel => sel pod.labels) = true ∧
  (match cfg.filter with
    | none => true
    | some f => match f pod with
      | none => false
      | some keep => keep) = true ∧
  pod.conditions.find? schedCondMatch = some cond ∧
  pvcUnbinderPredicate pod = true ∧
  schedulingFailureMatch cond.message = true

theorem shouldRemediate_eq_of_gates (cfg : UnbinderConfig) (now : Int)
    (pod : Pod) (cond : PodCondition) (h : gatesPass cfg pod cond) :
    shouldRemediate cfg now pod =
      if 0 < cfg.timeout - (now - cond.lastTransitionTime) then
        (true, cfg.timeout - (now - cond.lastTransitionTime))
      else (true, 0) := by
  obtain ⟨h1, h2, h3, h4, h5⟩ := h
  simp only [shouldRemediate, h1, h2, h3, h4, h5]
  simp

/-- C6: with all earlier eligibility gates passing, elapsed below Timeout
returns (true, Timeout minus elapsed); elapsed at or past Timeout returns
(true, 0); the returned delay strictly decreases as now advances toward
lastTransitionTime plus Timeout and is 0 at that threshold. -/
theorem c6_timeout_behavior (cfg : UnbinderConfig) (now : Int) (pod : Pod)
    (cond : PodCondition) (h : gatesPass cfg pod cond) :
    (now - cond.lastTransitionTime < cfg.timeout →
      shouldRemediate cfg now pod =
        (true, cfg.timeout - (now - cond.lastTransitionTime))) ∧
    (cfg.timeout ≤ now - cond.lastTransitionTime →
      shouldRemediate cfg now pod = (true, 0)) ∧
    (∀ n1 n2 : Int, n1 < n2 → n2 ≤ cond.lastTransitionTime + cfg.timeout →
      (shouldRemediate cfg n2 pod).2 < (shouldRemediate cfg n1 pod).2) ∧
    (shouldRemediate cfg (cond.lastTransitionTime + cfg.timeout) pod).2 = 0 := by
  refine ⟨?_, ?_, ?_, ?_⟩
  · intro hlt
    rw [shouldRemediate_eq_of_gates cfg now pod cond h, if_pos (by omega)]
  · intro hge
    rw [shouldRemediate_eq_of_gates cfg now pod cond h, if_neg (by omega)]
  · intro n1 n2 hlt hle
    rw [shouldRemediate_eq_of_gates cfg n1 pod cond h,
      shouldRemediate_eq_of_gates cfg n2 pod cond h]
    by_cases h2 : 0 < cfg.timeout - (n2 - cond.lastTransitionTime)
    · rw [if_pos h2, if_pos (by omega)]
      simp only
      omega
    · rw [if_neg h2, if_pos (by omega)]
      simp only
      omega
  · rw [shouldRemediate_eq_of_gates cfg _ pod cond h, if_neg (by omega)]

/-- Concrete Pod of the scenario in the testable-properties section of
the specification. -/
def examplePod : Pod :=
  { name := "db-2", ns := "default", labels := [],
    ownerReferences := [⟨"apps/v1", "StatefulSet", some true⟩],
    phase := "Pending",
    conditions := [⟨"PodScheduled", "False", "Unschedulable",
      "0/3 nodes are available: 3 node(s) had volume node affinity conflict", 0⟩],
    volumes := [⟨some ("data-db-2")⟩] }

/-- Configuration with Timeout 900, no selector, no filter, rebinding off. -/
def exampleCfg : UnbinderConfig := ⟨900, none, none, false⟩

theorem c6_timeout_behavior_witness :
    gatesPass exampleCfg examplePod
      ⟨"PodScheduled", "False", "Unschedulable",
        "0/3 nodes are available: 3 node(s) had volume node affinity conflict", 0⟩ ∧
    shouldRemediate exampleCfg 600 examplePod = (true, 300) ∧
    shouldRemediate exampleCfg 1200 examplePod = (true, 0) := by
  have hg : gatesPass exampleCfg examplePod
      ⟨"PodScheduled", "False", "Unschedulable",
        "0/3 nodes are available: 3 node(s) had volume node affinity conflict", 0⟩ := by
    refine ⟨by decide, by decide, by decide, by decide, by decide⟩
  refine ⟨hg, ?_, ?_⟩
  · have := (c6_timeout_behavior exampleCfg 600 examplePod _ hg).1
    simpa using this (by decide)
  · have := (c6_timeout_behavior exampleCfg 1200 examplePod _ hg).2.1
    simpa using this (by decide)

/-- C7: when every PodScheduled/False/Unschedulable condition of the Pod
has a message that neither matches the anchored no-nodes-available regex
alternative nor contains the volume-node-affinity substring, the
eligibility check returns false, whatever the other fields are. -/
theorem c7_unmatched_message_never_remediates (cfg : UnbinderConfig)
    (now : Int) (pod : Pod)
    (h : ∀ cond ∈ pod.conditions, schedCondMatch cond = true →
      schedulingFailureMatch cond.message = false) :
    (shouldRemediate cfg now pod).1 = false := by
  simp only [shouldRemediate]
  split
  · rfl
  · split
    · rfl
    · split
      · rfl
      · rename_i cond hfind
        split
        · rfl
        · split
          · rfl
          · rename_i hmatch
            exact absurd
              (h cond (List.mem_of_find?_eq_some hfind) (List.find?_some hfind))
              (by simpa using hmatch)

/-- The example Pod with the condition message replaced by a taint
message that matches neither regex alternative. -/
def taintedPod : Pod :=
  { examplePod with
    conditions := [⟨"PodScheduled", "False", "Unschedulable",
      "3 node(s) had untolerated taints", 0⟩] }

theorem c7_unmatched_message_witness :
    (∀ cond ∈ taintedPod.conditions, schedCondMatch cond = true →
      schedulingFailureMatch cond.message = false) ∧
    (shouldRemediate exampleCfg 1200 taintedPod).1 = false :=
  ⟨by decide,
    c7_unmatched_message_never_remediates exampleCfg 1200 taintedPod (by decide)⟩

/-! ### Structural lemmas about the pass pieces -/

theorem filterPVs_entry_mem (L : List PV) :
    ∀ (B : List (ObjectKey × Option PVC)) e, e ∈ (filterPVs L B).2 → e ∈ B := by
  induction L with
  | nil => intro B e he; simpa [filterPVs] using he
  | cons pv rest ih =>
    intro B e he
    cases hcr : pv.claimRef with
    | none =>
      simp only [filterPVs, hcr] at he
      exact ih B e he
    | some key =>
      simp only [filterPVs, hcr] at he
      by_cases hall : B.all (fun x => !(x.1 == key)) = true
      · rw [if_pos hall] at he
        exact ih B e he
      · rw [if_neg hall] at he
        by_cases hchk : (!pv.hasNodeAffinity || (!pv.hostPath && !pv.localVolume)) = true
        · rw [if_pos hchk] at he
          exact List.mem_of_mem_filter (ih _ e he)
        · rw [if_neg hchk] at he
          exact ih B e he

theorem affinity_check_fields (na hp lv : Bool)
    (h : ¬((!na || (!hp && !lv)) = true)) :
    na = true ∧ (hp = true ∨ lv = true) := by
  cases na <;> cases hp <;> cases lv <;> simp_all

theorem filterPVs_target_spec (L : List PV) :
    ∀ (B : List (ObjectKey × Option PVC)) pv, pv ∈ (filterPVs L B).1 →
      pv ∈ L ∧ pv.hasNodeAffinity = true ∧
        (pv.hostPath = true ∨ pv.localVolume = true) ∧
        ∃ k, pv.claimRef = some k ∧ ∃ e ∈ B, e.1 = k := by
  induction L with
  | nil => intro B pv hpv; simp [filterPVs] at hpv
  | cons q rest ih =>
    intro B pv hpv
    cases hcr : q.claimRef with
    | none =>
      simp only [filterPVs, hcr] at hpv
      obtain ⟨h1, h2, h3, h4⟩ := ih B pv hpv
      exact ⟨List.mem_cons_of_mem q h1, h2, h3, h4⟩
    | some key =>
      simp only [filterPVs, hcr] at hpv
      by_cases hall : B.all (fun x => !(x.1 == key)) = true
      · rw [if_pos hall] at hpv
        obtain ⟨h1, h2, h3, h4⟩ := ih B pv hpv
        exact ⟨List.mem_cons_of_mem q h1, h2, h3, h4⟩
      · rw [if_neg hall] at hpv
        by_cases hchk : (!q.hasNodeAffinity || (!q.hostPath && !q.localVolume)) = true
        · rw [if_pos hchk] at hpv
          obtain ⟨h1, h2, h3, k, hk, e, he, hek⟩ := ih _ pv hpv
          exact ⟨List.mem_cons_of_mem q h1, h2, h3, k, hk,
            e, List.mem_of_mem_filter he, hek⟩
        · rw [if_neg hchk] at hpv
          rcases List.mem_cons.mp hpv with heq | htail
          · subst heq
            obtain ⟨hna, hor⟩ :=
              affinity_check_fields pv.hasNodeAffinity pv.hostPath pv.localVolume hchk
            refine ⟨List.mem_cons_self _ _, hna, hor, key, hcr, ?_⟩
            by_contra hno
            push_neg at hno
            apply hall
            rw [List.all_eq_true]
            intro x hx
            simpa using fun hxk => hno x hx (by simpa using hxk)
          · obtain ⟨h1, h2, h3, h4⟩ := ih B pv htail
            exact ⟨List.mem_cons_of_mem q h1, h2, h3, h4⟩

theorem filterPVs_target_of_live_key (L : List PV) :
    ∀ (B : List (ObjectKey × Option PVC)) pv k, pv ∈ L →
      pv.claimRef = some k → (∃ e ∈ (filterPVs L B).2, e.1 = k) →
      pv ∈ (filterPVs L B).1 := by
  induction L with
  | nil => intro B pv k hm; simp at hm
  | cons q rest ih =>
    intro B pv k hm hcr hlive
    cases hqr : q.claimRef with
    | none =>
      simp only [filterPVs, hqr] at hlive ⊢
      rcases List.mem_cons.mp hm with heq | htail
      · subst heq; rw [hqr] at hcr; exact absurd hcr (by simp)
      · exact ih B pv k htail hcr hlive
    | some key =>
      simp only [filterPVs, hqr] at hlive ⊢
      by_cases hall : B.all (fun x => !(x.1 == key)) = true
      · rw [if_pos hall] at hlive ⊢
        rcases List.mem_cons.mp hm with heq | htail
        · subst heq
          rw [hqr] at hcr
          obtain ⟨e, he, hek⟩ := hlive
          have heB := filterPVs_entry_mem rest B e he
          have := List.all_eq_true.mp hall e heB
          simp only [Option.some.injEq] at hcr
          subst hcr
          simp [hek] at this
        · exact ih B pv k htail hcr hlive
      · rw [if_neg hall] at hlive ⊢
        by_cases hchk : (!q.hasNodeAffinity || (!q.hostPath && !q.localVolume)) = true
        · rw [if_pos hchk] at hlive ⊢
          rcases List.mem_cons.mp hm with heq | htail
          · subst heq
            rw [hqr] at hcr
            simp only [Option.some.injEq] at hcr
            subst hcr
            obtain ⟨e, he, hek⟩ := hlive
            have heB := filterPVs_entry_mem rest _ e he
            have := List.of_mem_filter heB
            simp [hek] at this
          · exact ih _ pv k htail hcr hlive
        · rw [if_neg hchk] at hlive ⊢
          rcases List.mem_cons.mp hm with heq | htail
          · subst heq
            exact List.mem_cons_self _ _
          · exact List.mem_cons_of_mem q (ih B pv k htail hcr hlive)

theorem deleteBoundPVCs_ops (B : List (ObjectKey × Option PVC)) :
    ∀ (pvcs : List PVC) op, op ∈ (deleteBoundPVCs B pvcs).2.2 →
      ∃ k, op = StoreOp.deletePVC k ∧
        ∃ pvc, (k, some pvc) ∈ B ∧ pvc.volumeName ≠ "" := by
  induction B with
  | nil => intro pvcs op h; simp [deleteBoundPVCs] at h
  | cons e rest ih =>
    intro pvcs op h
    obtain ⟨key, entry⟩ := e
    cases entry with
    | none =>
      simp only [deleteBoundPVCs] at h
      obtain ⟨k, hop, pvc, hmem, hvol⟩ := ih pvcs op h
      exact ⟨k, hop, pvc, List.mem_cons_of_mem _ hmem, hvol⟩
    | some pvc =>
      simp only [deleteBoundPVCs] at h
      by_cases hvol : pvc.volumeName == ""
      · rw [if_pos hvol] at h
        obtain ⟨k, hop, pvc2, hmem, hv⟩ := ih pvcs op h
        exact ⟨k, hop, pvc2, List.mem_cons_of_mem _ hmem, hv⟩
      · rw [if_neg hvol] at h
        rcases List.mem_cons.mp h with heq | htail
        · exact ⟨key, heq, pvc, List.mem_cons_self _ _,
            by simpa using hvol⟩
        · obtain ⟨k, hop, pvc2, hmem, hv⟩ := ih _ op htail
          exact ⟨k, hop, pvc2, List.mem_cons_of_mem _ hmem, hv⟩

theorem deleteBoundPVCs_none_src (B : List (ObjectKey × Option PVC)) :
    ∀ (pvcs : List PVC) k, (k, none) ∈ (deleteBoundPVCs B pvcs).1 →
      (k, none) ∈ B ∨ StoreOp.deletePVC k ∈ (deleteBoundPVCs B pvcs).2.2 := by
  induction B with
  | nil => intro pvcs k h; simp [deleteBoundPVCs] at h
  | cons e rest ih =>
    intro pvcs k h
    obtain ⟨key, entry⟩ := e
    cases entry with
    | none =>
      simp only [deleteBoundPVCs] at h ⊢
      rcases List.mem_cons.mp h with heq | htail
      · left; rw [heq]; exact List.mem_cons_self _ _
      · rcases ih pvcs k htail with hB | hop
        · exact Or.inl (List.mem_cons_of_mem _ hB)
        · exact Or.inr hop
    | some pvc =>
      simp only [deleteBoundPVCs] at h ⊢
      by_cases hvol : pvc.volumeName == ""
      · rw [if_pos hvol] at h ⊢
        rcases List.mem_cons.mp h with heq | htail
        · exact absurd heq (by simp)
        · rcases ih pvcs k htail with hB | hop
          · exact Or.inl (List.mem_cons_of_mem _ hB)
          · exact Or.inr hop
      · rw [if_neg hvol] at h ⊢
        rcases List.mem_cons.mp h with heq | htail
        · right
          simp only [Prod.mk.injEq] at heq
          exact heq.1 ▸ List.mem_cons_self _ _
        · rcases ih _ k htail with hB | hop
          · exact Or.inl (List.mem_cons_of_mem _ hB)
          · exact Or.inr (List.mem_cons_of_mem _ hop)

theorem recyclePVs_ops (T : List PV) :
    ∀ (a : Bool) (pvs : List PV) op, op ∈ (recyclePVs a pvs T).2.1 →
      ∃ n, op = StoreOp.clearClaimRef n := by
  induction T with
  | nil => intro a pvs op h; simp [recyclePVs] at h
  | cons t rest ih =>
    intro a pvs op h
    simp only [recyclePVs] at h
    by_cases hlocal : (!t.hostPath && !t.localVolume) = true
    · rw [if_pos hlocal] at h
      simp at h
    · rw [if_neg hlocal] at h
      by_cases ha : a = false
      · rw [if_pos ha] at h
        exact ih a pvs op h
      · rw [if_neg ha] at h
        cases hcr : t.claimRef with
        | none => rw [hcr] at h; exact ih a pvs op h
        | some ck =>
          rw [hcr] at h
          rcases List.mem_cons.mp h with heq | htail
          · exact ⟨t.name, heq⟩
          · exact ih a _ op htail

/-! ### Trace shape of a full pass, claims C1 and C2 -/

theorem passRecy_ops (cfg : UnbinderConfig) (st : ClusterState) (pod : Pod)
    (op : StoreOp) (h : op ∈ (passRecy cfg st pod).2.1) :
    ∃ n, op = StoreOp.clearClaimRef n :=
  recyclePVs_ops _ _ _ op h

theorem passDel_ops (st : ClusterState) (pod : Pod) (op : StoreOp)
    (h : op ∈ (passDel st pod).2.2) :
    ∃ k, op = StoreOp.deletePVC k ∧
      ∃ pvc, (k, some pvc) ∈ (passFP st pod).2 ∧ pvc.volumeName ≠ "" :=
  deleteBoundPVCs_ops _ _ op h

theorem passRetainOps_shape (st : ClusterState) (pod : Pod) (op : StoreOp)
    (h : op ∈ passRetainOps st pod) :
    ∃ pv ∈ (passFP st pod).1,
      op = StoreOp.ensureRetain pv.name (pv.claimRef.getD ⟨"", ""⟩) := by
  obtain ⟨pv, hpv, heq⟩ := List.mem_map.mp h
  exact ⟨pv, hpv, heq.symm⟩

theorem passTail_err_some (cfg : UnbinderConfig) (st : ClusterState)
    (pod : Pod) (e : String) (h : (passRecy cfg st pod).2.2 = some e) :
    passTail cfg st pod =
      ⟨⟨st.pod, (passDel st pod).2.1, (passRecy cfg st pod).1⟩,
        passRetainOps st pod ++ (passDel st pod).2.2 ++ (passRecy cfg st pod).2.1,
        some e⟩ := by
  unfold passTail
  rw [h]

theorem passTail_missing (cfg : UnbinderConfig) (st : ClusterState)
    (pod : Pod) (h : (passRecy cfg st pod).2.2 = none)
    (hm : (passDel st pod).1.any (fun e => e.2.isNone) = true) :
    passTail cfg st pod =
      ⟨⟨none, (passDel st pod).2.1, (passRecy cfg st pod).1⟩,
        passRetainOps st pod ++ (passDel st pod).2.2 ++
          (passRecy cfg st pod).2.1 ++ [StoreOp.deletePod pod.name],
        none⟩ := by
  unfold passTail
  rw [h]
  show (if (passDel st pod).1.any (fun e => e.2.isNone) then _ else _) = _
  rw [if_pos hm]

theorem passTail_not_missing (cfg : UnbinderConfig) (st : ClusterState)
    (pod : Pod) (h : (passRecy cfg st pod).2.2 = none)
    (hm : ¬((passDel st pod).1.any (fun e => e.2.isNone) = true)) :
    passTail cfg st pod =
      ⟨⟨st.pod, (passDel st pod).2.1, (passRecy cfg st pod).1⟩,
        passRetainOps st pod ++ (passDel st pod).2.2 ++ (passRecy cfg st pod).2.1,
        none⟩ := by
  unfold passTail
  rw [h]
  show (if (passDel st pod).1.any (fun e => e.2.isNone) then _ else _) = _
  rw [if_neg hm]

theorem passTail_trace_shape (cfg : UnbinderConfig) (st : ClusterState)
    (pod : Pod) :
    ∃ tail, (passTail cfg st pod).trace =
      passRetainOps st pod ++ (passDel st pod).2.2 ++ tail ∧
      ∀ op ∈ tail, (∃ n, op = StoreOp.clearClaimRef n) ∨
        ∃ n, op = StoreOp.deletePod n := by
  cases hrec : (passRecy cfg st pod).2.2 with
  | some e =>
    rw [passTail_err_some cfg st pod e hrec]
    exact ⟨(passRecy cfg st pod).2.1, rfl,
      fun op hop => Or.inl (passRecy_ops cfg st pod op hop)⟩
  | none =>
    by_cases hmiss : (passDel st pod).1.any (fun e => e.2.isNone) = true
    · rw [passTail_missing cfg st pod hrec hmiss]
      refine ⟨(passRecy cfg st pod).2.1 ++ [StoreOp.deletePod pod.name],
        by simp, ?_⟩
      intro op hop
      rcases List.mem_append.mp hop with h1 | h2
      · exact Or.inl (passRecy_ops cfg st pod op h1)
      · exact Or.inr ⟨pod.name, by simpa using h2⟩
    · rw [passTail_not_missing cfg st pod hrec hmiss]
      exact ⟨(passRecy cfg st pod).2.1, rfl,
        fun op hop => Or.inl (passRecy_ops cfg st pod op hop)⟩

theorem passTail_retain_precedes (cfg : UnbinderConfig) (st : ClusterState)
    (pod : Pod) (i : Nat) (k : ObjectKey)
    (hdel : ((passTail cfg st pod).trace)[i]? = some (StoreOp.deletePVC k))
    (href : ∃ pv ∈ st.pvs, pv.claimRef = some k) :
    ∃ j, j < i ∧ ∃ n,
      ((passTail cfg st pod).trace)[j]? = some (StoreOp.ensureRetain n k) := by
  obtain ⟨tail, htr, htail⟩ := passTail_trace_shape cfg st pod
  rw [htr] at hdel ⊢
  rw [List.append_assoc] at hdel ⊢
  by_cases hi : i < (passRetainOps st pod).length
  · exfalso
    rw [List.getElem?_append, if_pos hi] at hdel
    obtain ⟨pv, -, hop⟩ := passRetainOps_shape st pod _ (List.getElem?_mem hdel)
    simp at hop
  · push_neg at hi
    obtain ⟨pv, hpv, hcr⟩ := href
    have hmem := List.getElem?_mem hdel
    rcases List.mem_append.mp hmem with hR | hrest
    · obtain ⟨q, -, hop⟩ := passRetainOps_shape st pod _ hR
      simp at hop
    · rcases List.mem_append.mp hrest with hD | hT
      · obtain ⟨k', hopk, pvc, hkB, -⟩ := passDel_ops st pod _ hD
        have hk' : k = k' := by
          injection hopk
        subst hk'
        have htgt : pv ∈ (passFP st pod).1 :=
          filterPVs_target_of_live_key st.pvs _ pv k hpv hcr
            ⟨(k, some pvc), hkB, rfl⟩
        have hopR : StoreOp.ensureRetain pv.name k ∈ passRetainOps st pod := by
          refine List.mem_map.mpr ⟨pv, htgt, ?_⟩
          rw [hcr]
          rfl
        obtain ⟨j, hjlen, hjeq⟩ := List.getElem_of_mem hopR
        refine ⟨j, lt_of_lt_of_le hjlen hi, pv.name, ?_⟩
        rw [List.getElem?_append, if_pos hjlen,
          List.getElem?_eq_getElem hjlen, hjeq]
      · rcases htail _ hT with ⟨n, hop⟩ | ⟨n, hop⟩ <;> simp at hop

/-- C1 as stated fails: with a bound candidate PVC whose volume name
points at no listed PV (here: an empty PV list), the pass deletes the
PVC at trace position 0 with no preceding ensureRetainPolicy call. -/
def exampleStateNoPV : ClusterState :=
  { pod := some examplePod,
    pvcs := [⟨⟨"default", "data-db-2"⟩, "pv-x"⟩],
    pvs := [] }

/-- C1 counterexample: on a snapshot with a bound candidate PVC and an
empty Volume listing, the pass deletes the PVC with no preceding
ensureRetainPolicy call anywhere in the trace. -/
theorem c1_counterexample :
    ¬ (∀ (i : Nat) (k : ObjectKey),
      ((reconcileUnbinder exampleCfg 1200 exampleStateNoPV).trace)[i]? =
        some (StoreOp.deletePVC k) →
      ∃ j, j < i ∧ ∃ n,
        ((reconcileUnbinder exampleCfg 1200 exampleStateNoPV).trace)[j]? =
          some (StoreOp.ensureRetain n k)) := by
  intro h
  obtain ⟨j, hj, -⟩ := h 0 ⟨"default", "data-db-2"⟩ (by decide)
  omega

/-- C1 amended: a deleted candidate PVC is preceded by an
ensureRetainPolicy call on a Volume whose claim reference names it
whenever at least one listed Volume references that PVC; a candidate
whose volume name points at no listed Volume is deleted unguarded. -/
theorem c1_amended_retain_precedes_delete (cfg : UnbinderConfig) (now : Int)
    (st : ClusterState) (i : Nat) (k : ObjectKey)
    (hdel : ((reconcileUnbinder cfg now st).trace)[i]? =
      some (StoreOp.deletePVC k))
    (href : ∃ pv ∈ st.pvs, pv.claimRef = some k) :
    ∃ j, j < i ∧ ∃ n,
      ((reconcileUnbinder cfg now st).trace)[j]? =
        some (StoreOp.ensureRetain n k) := by
  cases hpod : st.pod with
  | none =>
    simp only [reconcileUnbinder, hpod] at hdel
    simp at hdel
  | some pod =>
    simp only [reconcileUnbinder, hpod] at hdel ⊢
    by_cases hsr : (shouldRemediate cfg now pod).1 = false ∨
        0 < (shouldRemediate cfg now pod).2
    · rw [if_pos hsr] at hdel
      simp at hdel
    · rw [if_neg hsr] at hdel ⊢
      by_cases hk : candidateKeys pod = []
      · rw [if_pos hk] at hdel
        simp at hdel
      · rw [if_neg hk] at hdel ⊢
        exact passTail_retain_precedes cfg st pod i k hdel href

/-- Scenario state from the testable-properties section: candidate PVC
bound to a HostPath PV with node affinity and a Delete reclaim policy. -/
def exampleStateFull : ClusterState :=
  { pod := some examplePod,
    pvcs := [⟨⟨"default", "data-db-2"⟩, "pv-x"⟩],
    pvs := [⟨"pv-x", some ⟨"default", "data-db-2"⟩, true, true, false, "Delete"⟩] }

theorem c1_amended_witness :
    ∃ j, j < 1 ∧ ∃ n,
      ((reconcileUnbinder exampleCfg 1200 exampleStateFull).trace)[j]? =
        some (StoreOp.ensureRetain n ⟨"default", "data-db-2"⟩) :=
  c1_amended_retain_precedes_delete exampleCfg 1200 exampleStateFull 1
    ⟨"default", "data-db-2"⟩ (by decide)
    ⟨⟨"pv-x", some ⟨"default", "data-db-2"⟩, true, true, false, "Delete"⟩,
      by decide, rfl⟩

theorem deletePod_not_in_core (cfg : UnbinderConfig) (st : ClusterState)
    (pod : Pod) (n : String) :
    StoreOp.deletePod n ∉
      passRetainOps st pod ++ (passDel st pod).2.2 ++ (passRecy cfg st pod).2.1 := by
  intro h
  rcases List.mem_append.mp h with h1 | h2
  · rcases List.mem_append.mp h1 with hR | hD
    · obtain ⟨q, -, hop⟩ := passRetainOps_shape st pod _ hR
      simp at hop
    · obtain ⟨k, hop, -⟩ := passDel_ops st pod _ hD
      simp at hop
  · obtain ⟨m, hop⟩ := passRecy_ops cfg st pod _ h2
    simp at hop

theorem passTail_delete_pod_src (cfg : UnbinderConfig) (st : ClusterState)
    (pod : Pod)
    (hdel : StoreOp.deletePod pod.name ∈ (passTail cfg st pod).trace) :
    (∃ k, StoreOp.deletePVC k ∈ (passTail cfg st pod).trace) ∨
    ∃ k ∈ candidateKeys pod, fetchPVC st.pvcs k = none := by
  cases hrec : (passRecy cfg st pod).2.2 with
  | some e =>
    rw [passTail_err_some cfg st pod e hrec] at hdel
    exact absurd (by simpa [List.append_assoc] using hdel)
      (deletePod_not_in_core cfg st pod pod.name)
  | none =>
    by_cases hmiss : (passDel st pod).1.any (fun e => e.2.isNone) = true
    · obtain ⟨en, hen, henn⟩ := List.any_eq_true.mp hmiss
      obtain ⟨k, v⟩ := en
      have hv : v = none := by
        simpa using henn
      subst hv
      rcases deleteBoundPVCs_none_src _ _ k hen with hB | hop
      · right
        have := filterPVs_entry_mem st.pvs _ _ hB
        obtain ⟨k', hk', hpair⟩ := List.mem_map.mp this
        have hkk : k' = k := congrArg Prod.fst hpair
        subst hkk
        have hfetch : fetchPVC st.pvcs k' = none := congrArg Prod.snd hpair
        exact ⟨k', hk', hfetch⟩
      · left
        refine ⟨k, ?_⟩
        rw [passTail_missing cfg st pod hrec hmiss]
        show _ ∈ passRetainOps st pod ++ (passDel st pod).2.2 ++
          (passRecy cfg st pod).2.1 ++ [StoreOp.deletePod pod.name]
        exact List.mem_append.mpr (Or.inl (List.mem_append.mpr (Or.inl
          (List.mem_append.mpr (Or.inr hop)))))
    · rw [passTail_not_missing cfg st pod hrec hmiss] at hdel
      exact absurd (by simpa [List.append_assoc] using hdel)
        (deletePod_not_in_core cfg st pod pod.name)

/-- C2 as stated fails: with the single candidate PVC absent from the
store (not-found, recorded as a nil entry), step 5 deletes nothing, yet
the pass still deletes the Pod. -/
def exampleStateNoPVC : ClusterState :=
  { pod := some examplePod, pvcs := [], pvs := [] }

/-- C2 counterexample: on a snapshot where the candidate PVC is already
absent, step 5 deletes no PVC yet the pass still deletes the Pod. -/
theorem c2_counterexample :
    StoreOp.deletePod "db-2" ∈
      (reconcileUnbinder exampleCfg 1200 exampleStateNoPVC).trace ∧
    ¬ ∃ k, StoreOp.deletePVC k ∈
      (reconcileUnbinder exampleCfg 1200 exampleStateNoPVC).trace := by
  constructor
  · have : (reconcileUnbinder exampleCfg 1200 exampleStateNoPVC).trace =
        [StoreOp.deletePod "db-2"] := by decide
    rw [this]
    exact List.mem_cons_self _ _
  · rintro ⟨k, hk⟩
    have : (reconcileUnbinder exampleCfg 1200 exampleStateNoPVC).trace =
        [StoreOp.deletePod "db-2"] := by decide
    rw [this] at hk
    simp at hk

/-- C2 amended: the Pod is deleted only when at least one candidate PVC
is missing at the end of step 5 — deleted by this pass, or already
not-found when fetched; if every candidate still exists after step 5, no
Pod deletion happens. -/
theorem c2_amended_pod_delete_requires_missing (cfg : UnbinderConfig)
    (now : Int) (st : ClusterState) (pod : Pod) (hpod : st.pod = some pod)
    (hdel : StoreOp.deletePod pod.name ∈ (reconcileUnbinder cfg now st).trace) :
    (∃ k, StoreOp.deletePVC k ∈ (reconcileUnbinder cfg now st).trace) ∨
    ∃ k ∈ candidateKeys pod, fetchPVC st.pvcs k = none := by
  simp only [reconcileUnbinder, hpod] at hdel ⊢
  by_cases hsr : (shouldRemediate cfg now pod).1 = false ∨
      0 < (shouldRemediate cfg now pod).2
  · rw [if_pos hsr] at hdel
    simp at hdel
  · rw [if_neg hsr] at hdel ⊢
    by_cases hk : candidateKeys pod = []
    · rw [if_pos hk] at hdel
      simp at hdel
    · rw [if_neg hk] at hdel ⊢
      exact passTail_delete_pod_src cfg st pod hdel

theorem c2_amended_witness :
    (∃ k, StoreOp.deletePVC k ∈
      (reconcileUnbinder exampleCfg 1200 exampleStateNoPVC).trace) ∨
    ∃ k ∈ candidateKeys examplePod, fetchPVC exampleStateNoPVC.pvcs k = none :=
  c2_amended_pod_delete_requires_missing exampleCfg 1200 exampleStateNoPVC
    examplePod rfl (by decide)

/-! ### Pointwise characterization of the state mutators, toward claim C5 -/

/-- The pointwise effect of step 2 on one PV: policy forced to Retain
when some kept PV shares its name. -/
def retainIfTarget (T : List PV) (pv : PV) : PV :=
  if T.any (fun t => t.name == pv.name) then { pv with reclaimPolicy := "Retain" }
  else pv

/-- The pointwise effect of step 4 on one PV when rebinding is allowed. -/
def clearIfTarget (T : List PV) (pv : PV) : PV :=
  if T.any (fun t => t.name == pv.name) then { pv with claimRef := none }
  else pv

theorem retainIfTarget_cons (t : PV) (rest : List PV) (pv : PV) :
    retainIfTarget rest
      (if pv.name == t.name then { pv with reclaimPolicy := "Retain" } else pv) =
      retainIfTarget (t :: rest) pv := by
  simp only [retainIfTarget, List.any_cons]
  by_cases hn : pv.name = t.name
  · have h1 : (pv.name == t.name) = true := by simpa [beq_iff_eq] using hn
    have h2 : (t.name == pv.name) = true := by simpa [beq_iff_eq] using hn.symm
    simp only [h1, h2, if_true, Bool.true_or]
    split <;> rfl
  · have h1 : (pv.name == t.name) = false := by
      simp only [beq_eq_false_iff_ne, ne_eq]
      exact hn
    have h2 : (t.name == pv.name) = false := by
      simp only [beq_eq_false_iff_ne, ne_eq]
      exact fun hc => hn hc.symm
    simp only [h1, h2, Bool.false_eq_true, if_false, Bool.false_or]

theorem clearIfTarget_cons (t : PV) (rest : List PV) (pv : PV) :
    clearIfTarget rest
      (if pv.name == t.name then { pv with claimRef := none } else pv) =
      clearIfTarget (t :: rest) pv := by
  simp only [clearIfTarget, List.any_cons]
  by_cases hn : pv.name = t.name
  · have h1 : (pv.name == t.name) = true := by simpa [beq_iff_eq] using hn
    have h2 : (t.name == pv.name) = true := by simpa [beq_iff_eq] using hn.symm
    simp only [h1, h2, if_true, Bool.true_or]
    split <;> rfl
  · have h1 : (pv.name == t.name) = false := by
      simp only [beq_eq_false_iff_ne, ne_eq]
      exact hn
    have h2 : (t.name == pv.name) = false := by
      simp only [beq_eq_false_iff_ne, ne_eq]
      exact fun hc => hn hc.symm
    simp only [h1, h2, Bool.false_eq_true, if_false, Bool.false_or]

theorem ensureRetainAll_eq_map (T : List PV) :
    ∀ L : List PV, ensureRetainAll L T = L.map (retainIfTarget T) := by
  induction T with
  | nil =>
    intro L
    rw [ensureRetainAll]
    have h : ∀ pv ∈ L, retainIfTarget [] pv = id pv := by
      intro pv _
      simp [retainIfTarget]
    rw [List.map_congr_left h, List.map_id]
  | cons t rest ih =>
    intro L
    rw [ensureRetainAll, ih, setRetain, List.map_map]
    refine List.map_congr_left ?_
    intro pv _
    exact retainIfTarget_cons t rest pv

theorem recyclePVs_no_rebind (T : List PV)
    (hT : ∀ t ∈ T, t.hostPath = true ∨ t.localVolume = true) :
    ∀ L : List PV, recyclePVs false L T = (L, [], none) := by
  induction T with
  | nil => intro L; rfl
  | cons t rest ih =>
    intro L
    rw [recyclePVs]
    have hl : (!t.hostPath && !t.localVolume) = false := by
      rcases hT t (List.mem_cons_self _ _) with h | h <;> simp [h]
    rw [hl]
    simp only [Bool.false_eq_true, if_false]
    rw [if_pos trivial]
    exact ih (fun q hq => hT q (List.mem_cons_of_mem t hq)) L

theorem recyclePVs_rebind (T : List PV)
    (hT : ∀ t ∈ T, (t.hostPath = true ∨ t.localVolume = true) ∧
      t.claimRef.isSome = true) :
    ∀ L : List PV, recyclePVs true L T =
      (L.map (clearIfTarget T),
        T.map (fun t => StoreOp.clearClaimRef t.name), none) := by
  induction T with
  | nil =>
    intro L
    rw [recyclePVs]
    have h : ∀ pv ∈ L, clearIfTarget [] pv = id pv := by
      intro pv _
      simp [clearIfTarget]
    rw [List.map_congr_left h, List.map_id]
    rfl
  | cons t rest ih =>
    intro L
    rw [recyclePVs]
    have hl : (!t.hostPath && !t.localVolume) = false := by
      rcases (hT t (List.mem_cons_self _ _)).1 with h | h <;> simp [h]
    rw [hl]
    simp only [Bool.false_eq_true, if_false]
    rw [if_neg (by simp)]
    obtain ⟨ck, hck⟩ := Option.isSome_iff_exists.mp (hT t (List.mem_cons_self _ _)).2
    rw [hck]
    show ((recyclePVs true (clearClaimRefState L t.name) rest).1,
        StoreOp.clearClaimRef t.name ::
          (recyclePVs true (clearClaimRefState L t.name) rest).2.1,
        (recyclePVs true (clearClaimRefState L t.name) rest).2.2) =
      (L.map (clearIfTarget (t :: rest)),
        (t :: rest).map (fun t => StoreOp.clearClaimRef t.name), none)
    rw [ih (fun q hq => hT q (List.mem_cons_of_mem t hq)) (clearClaimRefState L t.name)]
    rw [clearClaimRefState, List.map_map]
    simp only [Function.comp_def]
    rw [List.map_congr_left (fun pv _ => clearIfTarget_cons t rest pv)]
    rfl

theorem recyclePVs_err_none (T : List PV)
    (hT : ∀ t ∈ T, t.hostPath = true ∨ t.localVolume = true) :
    ∀ (a : Bool) (L : List PV), (recyclePVs a L T).2.2 = none := by
  induction T with
  | nil => intro a L; rfl
  | cons t rest ih =>
    intro a L
    rw [recyclePVs]
    have hl : (!t.hostPath && !t.localVolume) = false := by
      rcases hT t (List.mem_cons_self _ _) with h | h <;> simp [h]
    rw [hl]
    simp only [Bool.false_eq_true, if_false]
    have htail := fun q hq => hT q (List.mem_cons_of_mem t hq)
    by_cases ha : a = false
    · rw [if_pos ha]
      exact ih htail a L
    · rw [if_neg ha]
      cases t.claimRef with
      | none => exact ih htail a L
      | some ck => exact ih htail a _

theorem deleteBoundPVCs_all_unbound (B : List (ObjectKey × Option PVC))
    (hB : ∀ e ∈ B, ∃ pvc, e.2 = some pvc ∧ pvc.volumeName = "") :
    ∀ pvcs : List PVC, deleteBoundPVCs B pvcs = (B, pvcs, []) := by
  induction B with
  | nil => intro pvcs; rfl
  | cons e rest ih =>
    intro pvcs
    obtain ⟨key, entry⟩ := e
    obtain ⟨pvc, hsome, hvol⟩ := hB _ (List.mem_cons_self _ _)
    simp only at hsome
    subst hsome
    rw [deleteBoundPVCs]
    rw [if_pos (by simpa using hvol)]
    rw [ih (fun q hq => hB q (List.mem_cons_of_mem _ hq)) pvcs]

theorem deleteBoundPVCs_no_missing (B : List (ObjectKey × Option PVC)) :
    ∀ pvcs : List PVC,
      (deleteBoundPVCs B pvcs).1.any (fun e => e.2.isNone) = false →
      deleteBoundPVCs B pvcs = (B, pvcs, []) ∧
        ∀ e ∈ B, ∃ pvc, e.2 = some pvc ∧ pvc.volumeName = "" := by
  induction B with
  | nil =>
    intro pvcs _
    exact ⟨rfl, by simp⟩
  | cons e rest ih =>
    intro pvcs hany
    obtain ⟨key, entry⟩ := e
    cases entry with
    | none =>
      rw [deleteBoundPVCs] at hany
      simp at hany
    | some pvc =>
      by_cases hvol : pvc.volumeName == ""
      · rw [deleteBoundPVCs, if_pos hvol] at hany ⊢
        simp only [List.any_cons, Bool.or_eq_false_iff] at hany
        obtain ⟨hrest_eq, hrest_all⟩ := ih pvcs hany.2
        rw [hrest_eq]
        refine ⟨rfl, ?_⟩
        intro q hq
        rcases List.mem_cons.mp hq with heq | htail
        · subst heq
          exact ⟨pvc, rfl, by simpa using hvol⟩
        · exact hrest_all q htail
      · rw [deleteBoundPVCs, if_neg hvol] at hany
        simp at hany

theorem filterPVs_map_invariant (g : PV → PV)
    (hg : ∀ pv, (g pv).claimRef = pv.claimRef ∧
      (g pv).hasNodeAffinity = pv.hasNodeAffinity ∧
      (g pv).hostPath = pv.hostPath ∧ (g pv).localVolume = pv.localVolume)
    (L : List PV) :
    ∀ B, filterPVs (L.map g) B = ((filterPVs L B).1.map g, (filterPVs L B).2) := by
  induction L with
  | nil => intro B; simp [filterPVs]
  | cons pv rest ih =>
    intro B
    rw [List.map_cons]
    cases hcr : pv.claimRef with
    | none =>
      simp only [filterPVs, (hg pv).1, hcr]
      exact ih B
    | some key =>
      simp only [filterPVs, (hg pv).1, hcr, (hg pv).2.1, (hg pv).2.2.1,
        (hg pv).2.2.2]
      by_cases hall : B.all (fun x => !(x.1 == key)) = true
      · rw [if_pos hall, if_pos hall]
        exact ih B
      · rw [if_neg hall, if_neg hall]
        by_cases hchk : (!pv.hasNodeAffinity || (!pv.hostPath && !pv.localVolume)) = true
        · rw [if_pos hchk, if_pos hchk]
          exact ih _
        · rw [if_neg hchk, if_neg hchk]
          rw [ih B]
          rfl

theorem affinity_check_of_fields (na hp lv : Bool)
    (h1 : na = true) (h2 : hp = true ∨ lv = true) :
    (!na || (!hp && !lv)) = false := by
  cases na <;> cases hp <;> cases lv <;> simp_all

theorem filterPVs_clear_matched (L : List PV) :
    ∀ (B : List (ObjectKey × Option PVC)) (S : List PV),
      (L.map PV.name).Nodup →
      (∀ pv ∈ L, ((S.any fun t => t.name == pv.name) = true ↔
        pv ∈ (filterPVs L B).1)) →
      filterPVs (L.map (clearIfTarget S)) B = ([], (filterPVs L B).2) := by
  induction L with
  | nil =>
    intro B S _ _
    simp [filterPVs]
  | cons pv rest ih =>
    intro B S hnd hS
    have hnd' : (pv.name :: rest.map PV.name).Nodup := by simpa using hnd
    have hnd_tail : (rest.map PV.name).Nodup := (List.nodup_cons.mp hnd').2
    have hname_not : pv.name ∉ rest.map PV.name := (List.nodup_cons.mp hnd').1
    rw [List.map_cons]
    cases hcr : pv.claimRef with
    | none =>
      have hfp : filterPVs (pv :: rest) B = filterPVs rest B := by
        simp only [filterPVs, hcr]
      have hpv_not : pv ∉ (filterPVs (pv :: rest) B).1 := by
        intro hmem
        obtain ⟨-, -, -, k, hk, -⟩ := filterPVs_target_spec _ _ _ hmem
        rw [hcr] at hk
        exact Option.noConfusion hk
      have hcond : ¬((S.any fun t => t.name == pv.name) = true) := fun hc =>
        hpv_not ((hS pv (List.mem_cons_self _ _)).mp hc)
      have hgpv : clearIfTarget S pv = pv := by
        rw [clearIfTarget, if_neg hcond]
      rw [hgpv, hfp]
      have hstep : filterPVs (pv :: rest.map (clearIfTarget S)) B =
          filterPVs (rest.map (clearIfTarget S)) B := by
        simp only [filterPVs, hcr]
      rw [hstep]
      refine ih B S hnd_tail ?_
      intro q hq
      have h0 := hS q (List.mem_cons_of_mem pv hq)
      rw [hfp] at h0
      exact h0
    | some key =>
      by_cases hall : B.all (fun x => !(x.1 == key)) = true
      · have hfp : filterPVs (pv :: rest) B = filterPVs rest B := by
          simp only [filterPVs, hcr]
          rw [if_pos hall]
        have hpv_not : pv ∉ (filterPVs (pv :: rest) B).1 := by
          intro hmem
          obtain ⟨-, -, -, k, hk, e, he, hek⟩ := filterPVs_target_spec _ _ _ hmem
          rw [hcr] at hk
          obtain rfl : key = k := Option.some_inj.mp hk
          have := List.all_eq_true.mp hall e he
          simp [hek] at this
        have hcond : ¬((S.any fun t => t.name == pv.name) = true) := fun hc =>
          hpv_not ((hS pv (List.mem_cons_self _ _)).mp hc)
        have hgpv : clearIfTarget S pv = pv := by
          rw [clearIfTarget, if_neg hcond]
        rw [hgpv, hfp]
        have hstep : filterPVs (pv :: rest.map (clearIfTarget S)) B =
            filterPVs (rest.map (clearIfTarget S)) B := by
          simp only [filterPVs, hcr]
          rw [if_pos hall]
        rw [hstep]
        refine ih B S hnd_tail ?_
        intro q hq
        have h0 := hS q (List.mem_cons_of_mem pv hq)
        rw [hfp] at h0
        exact h0
      · by_cases hchk :
            (!pv.hasNodeAffinity || (!pv.hostPath && !pv.localVolume)) = true
        · have hfp : filterPVs (pv :: rest) B =
              filterPVs rest (B.filter (fun e => !(e.1 == key))) := by
            simp only [filterPVs, hcr]
            rw [if_neg hall, if_pos hchk]
          have hpv_not : pv ∉ (filterPVs (pv :: rest) B).1 := by
            intro hmem
            obtain ⟨-, h2, h3, -⟩ := filterPVs_target_spec _ _ _ hmem
            rw [affinity_check_of_fields _ _ _ h2 h3] at hchk
            exact Bool.false_ne_true hchk
          have hcond : ¬((S.any fun t => t.name == pv.name) = true) := fun hc =>
            hpv_not ((hS pv (List.mem_cons_self _ _)).mp hc)
          have hgpv : clearIfTarget S pv = pv := by
            rw [clearIfTarget, if_neg hcond]
          rw [hgpv, hfp]
          have hstep : filterPVs (pv :: rest.map (clearIfTarget S)) B =
              filterPVs (rest.map (clearIfTarget S))
                (B.filter (fun e => !(e.1 == key))) := by
            simp only [filterPVs, hcr]
            rw [if_neg hall, if_pos hchk]
          rw [hstep]
          refine ih _ S hnd_tail ?_
          intro q hq
          have h0 := hS q (List.mem_cons_of_mem pv hq)
          rw [hfp] at h0
          exact h0
        · have hfp : filterPVs (pv :: rest) B =
              (pv :: (filterPVs rest B).1, (filterPVs rest B).2) := by
            simp only [filterPVs, hcr]
            rw [if_neg hall, if_neg hchk]
          have hcond : (S.any fun t => t.name == pv.name) = true := by
            refine (hS pv (List.mem_cons_self _ _)).mpr ?_
            rw [hfp]
            exact List.mem_cons_self _ _
          have hgpv : clearIfTarget S pv = { pv with claimRef := none } := by
            rw [clearIfTarget, if_pos hcond]
          rw [hgpv, hfp]
          have hstep : filterPVs ({ pv with claimRef := none } ::
              rest.map (clearIfTarget S)) B =
              filterPVs (rest.map (clearIfTarget S)) B := by
            simp only [filterPVs]
          rw [hstep]
          refine ih B S hnd_tail ?_
          intro q hq
          have h0 := hS q (List.mem_cons_of_mem pv hq)
          rw [hfp] at h0
          simp only at h0
          constructor
          · intro hc
            rcases List.mem_cons.mp (h0.mp hc) with heq | htail
            · exfalso
              apply hname_not
              rw [← heq]
              exact List.mem_map_of_mem PV.name hq
            · exact htail
          · intro hm
            exact h0.mpr (List.mem_cons_of_mem pv hm)

theorem retainIfTarget_name (T : List PV) (pv : PV) :
    (retainIfTarget T pv).name = pv.name := by
  rw [retainIfTarget]
  split <;> rfl

theorem retainIfTarget_preserves (T : List PV) (pv : PV) :
    (retainIfTarget T pv).claimRef = pv.claimRef ∧
    (retainIfTarget T pv).hasNodeAffinity = pv.hasNodeAffinity ∧
    (retainIfTarget T pv).hostPath = pv.hostPath ∧
    (retainIfTarget T pv).localVolume = pv.localVolume := by
  rw [retainIfTarget]
  split <;> exact ⟨rfl, rfl, rfl, rfl⟩

theorem any_name_map_retain (T C : List PV) (s : String) :
    ((C.map (retainIfTarget T)).any fun t => t.name == s) =
      C.any fun t => t.name == s := by
  induction C with
  | nil => rfl
  | cons c cs ih =>
    simp only [List.map_cons, List.any_cons, ih, retainIfTarget_name]

theorem map_name_retain (T C : List PV) :
    (C.map (retainIfTarget T)).map PV.name = C.map PV.name := by
  rw [List.map_map]
  refine List.map_congr_left ?_
  intro pv _
  exact retainIfTarget_name T pv

theorem ensureRetain_idem (T C : List PV) :
    ensureRetainAll (C.map (retainIfTarget T)) (T.map (retainIfTarget T)) =
      C.map (retainIfTarget T) := by
  rw [ensureRetainAll_eq_map, List.map_map]
  refine List.map_congr_left ?_
  intro pv _
  show retainIfTarget (T.map (retainIfTarget T)) (retainIfTarget T pv) =
    retainIfTarget T pv
  have hany : ((T.map (retainIfTarget T)).any
      fun t => t.name == (retainIfTarget T pv).name) =
      T.any fun t => t.name == pv.name := by
    rw [retainIfTarget_name, any_name_map_retain]
  by_cases hc : (T.any fun t => t.name == pv.name) = true
  · have h1 : ((T.map (retainIfTarget T)).any
        fun t => t.name == (retainIfTarget T pv).name) = true := by
      rw [hany]; exact hc
    conv_lhs => rw [retainIfTarget, if_pos h1]
    conv_lhs => rw [retainIfTarget, if_pos hc]
    conv_rhs => rw [retainIfTarget, if_pos hc]
  · have h1 : ¬(((T.map (retainIfTarget T)).any
        fun t => t.name == (retainIfTarget T pv).name) = true) := by
      rw [hany]; exact hc
    conv_lhs => rw [retainIfTarget, if_neg h1]

theorem passTail_stable_core (cfg : UnbinderConfig) (st : ClusterState)
    (pod : Pod) (p : Option Pod) (T2 : List PV) (ops2 : List StoreOp)
    (hub : ∀ e ∈ (passFP st pod).2, ∃ pvc, e.2 = some pvc ∧ pvc.volumeName = "")
    (hfp2 : passFP (⟨p, st.pvcs, (passRecy cfg st pod).1⟩ : ClusterState) pod =
      (T2, (passFP st pod).2))
    (hrecy2 : passRecy cfg (⟨p, st.pvcs, (passRecy cfg st pod).1⟩ : ClusterState)
      pod = ((passRecy cfg st pod).1, ops2, none)) :
    (passTail cfg (⟨p, st.pvcs, (passRecy cfg st pod).1⟩ : ClusterState)
      pod).state = ⟨p, st.pvcs, (passRecy cfg st pod).1⟩ := by
  have hdel2 : passDel (⟨p, st.pvcs, (passRecy cfg st pod).1⟩ : ClusterState)
      pod = ((passFP st pod).2, st.pvcs, []) := by
    show deleteBoundPVCs
      (passFP (⟨p, st.pvcs, (passRecy cfg st pod).1⟩ : ClusterState) pod).2
      st.pvcs = _
    rw [hfp2]
    exact deleteBoundPVCs_all_unbound _ hub st.pvcs
  have hmiss2 : ¬((passDel (⟨p, st.pvcs, (passRecy cfg st pod).1⟩ :
      ClusterState) pod).1.any (fun e => e.2.isNone) = true) := by
    rw [hdel2]
    intro hc
    obtain ⟨e, he, hne⟩ := List.any_eq_true.mp hc
    obtain ⟨pvc, heq, -⟩ := hub e he
    rw [heq] at hne
    simp at hne
  rw [passTail_not_missing cfg _ pod (by rw [hrecy2]) hmiss2]
  rw [hdel2, hrecy2]

theorem passTail_stable (cfg : UnbinderConfig) (st : ClusterState) (pod : Pod)
    (p : Option Pod) (hnd : (st.pvs.map PV.name).Nodup)
    (hub : ∀ e ∈ (passFP st pod).2, ∃ pvc, e.2 = some pvc ∧ pvc.volumeName = "") :
    (passTail cfg (⟨p, st.pvcs, (passRecy cfg st pod).1⟩ : ClusterState)
      pod).state = ⟨p, st.pvcs, (passRecy cfg st pod).1⟩ := by
  have hspec := fun t ht => filterPVs_target_spec st.pvs (passByKey st pod) t ht
  have hloc : ∀ t ∈ (passFP st pod).1,
      t.hostPath = true ∨ t.localVolume = true :=
    fun t ht => (hspec t ht).2.2.1
  have hsome : ∀ t ∈ (passFP st pod).1, t.claimRef.isSome = true := by
    intro t ht
    obtain ⟨-, -, -, k, hk, -⟩ := hspec t ht
    rw [hk]
    rfl
  cases harb : cfg.allowRebinding with
  | false =>
    have hrecy : passRecy cfg st pod =
        (ensureRetainAll st.pvs (passFP st pod).1, [], none) := by
      show recyclePVs cfg.allowRebinding
        (ensureRetainAll st.pvs (passFP st pod).1) (passFP st pod).1 = _
      rw [harb, recyclePVs_no_rebind (passFP st pod).1 hloc]
    have hpvs2 : (passRecy cfg st pod).1 =
        st.pvs.map (retainIfTarget (passFP st pod).1) := by
      rw [hrecy, ensureRetainAll_eq_map]
    have hfp2 : passFP (⟨p, st.pvcs, (passRecy cfg st pod).1⟩ :
        ClusterState) pod =
        ((passFP st pod).1.map (retainIfTarget (passFP st pod).1),
          (passFP st pod).2) := by
      show filterPVs (passRecy cfg st pod).1 (passByKey st pod) = _
      rw [hpvs2, filterPVs_map_invariant _ (retainIfTarget_preserves _) st.pvs]
      rfl
    have hloc2 : ∀ t ∈ (passFP st pod).1.map (retainIfTarget (passFP st pod).1),
        t.hostPath = true ∨ t.localVolume = true := by
      intro t ht
      obtain ⟨q, hq, rfl⟩ := List.mem_map.mp ht
      rcases hloc q hq with h | h
      · left
        rw [(retainIfTarget_preserves _ q).2.2.1]
        exact h
      · right
        rw [(retainIfTarget_preserves _ q).2.2.2]
        exact h
    have hrecy2 : passRecy cfg
        (⟨p, st.pvcs, (passRecy cfg st pod).1⟩ : ClusterState) pod =
        ((passRecy cfg st pod).1, [], none) := by
      show recyclePVs cfg.allowRebinding
        (ensureRetainAll (passRecy cfg st pod).1
          (passFP (⟨p, st.pvcs, (passRecy cfg st pod).1⟩ : ClusterState) pod).1)
        (passFP (⟨p, st.pvcs, (passRecy cfg st pod).1⟩ :
          ClusterState) pod).1 = _
      rw [harb, hfp2]
      show recyclePVs false
        (ensureRetainAll (passRecy cfg st pod).1
          ((passFP st pod).1.map (retainIfTarget (passFP st pod).1)))
        ((passFP st pod).1.map (retainIfTarget (passFP st pod).1)) = _
      rw [hpvs2, ensureRetain_idem, recyclePVs_no_rebind _ hloc2]
    exact passTail_stable_core cfg st pod p _ _ hub hfp2 hrecy2
  | true =>
    have hT2 : ∀ t ∈ (passFP st pod).1,
        (t.hostPath = true ∨ t.localVolume = true) ∧ t.claimRef.isSome = true :=
      fun t ht => ⟨hloc t ht, hsome t ht⟩
    have hrecy : passRecy cfg st pod =
        ((ensureRetainAll st.pvs (passFP st pod).1).map
            (clearIfTarget (passFP st pod).1),
          (passFP st pod).1.map (fun t => StoreOp.clearClaimRef t.name),
          none) := by
      show recyclePVs cfg.allowRebinding
        (ensureRetainAll st.pvs (passFP st pod).1) (passFP st pod).1 = _
      rw [harb, recyclePVs_rebind _ hT2]
    have hpvs2 : (passRecy cfg st pod).1 =
        (st.pvs.map (retainIfTarget (passFP st pod).1)).map
          (clearIfTarget (passFP st pod).1) := by
      rw [hrecy, ensureRetainAll_eq_map]
    have hnd2 : ((st.pvs.map (retainIfTarget (passFP st pod).1)).map
        PV.name).Nodup := by
      rw [map_name_retain]
      exact hnd
    have hiff : ∀ q ∈ st.pvs.map (retainIfTarget (passFP st pod).1),
        (((passFP st pod).1.any fun t => t.name == q.name) = true ↔
          q ∈ (filterPVs (st.pvs.map (retainIfTarget (passFP st pod).1))
            (passByKey st pod)).1) := by
      intro q hq
      obtain ⟨pv, hpv, rfl⟩ := List.mem_map.mp hq
      rw [filterPVs_map_invariant _ (retainIfTarget_preserves _) st.pvs]
      rw [retainIfTarget_name]
      constructor
      · intro hc
        obtain ⟨t, ht, htn⟩ := List.any_eq_true.mp hc
        rw [beq_iff_eq] at htn
        have htL : t ∈ st.pvs := (hspec t ht).1
        have heq : t = pv := List.inj_on_of_nodup_map hnd htL hpv htn
        subst heq
        exact List.mem_map_of_mem _ ht
      · intro hm
        obtain ⟨t, ht, hteq⟩ := List.mem_map.mp hm
        have hname : t.name = pv.name := by
          have := congrArg PV.name hteq
          rwa [retainIfTarget_name, retainIfTarget_name] at this
        exact List.any_eq_true.mpr ⟨t, ht, by rw [beq_iff_eq]; exact hname⟩
    have hfp2 : passFP (⟨p, st.pvcs, (passRecy cfg st pod).1⟩ :
        ClusterState) pod = ([], (passFP st pod).2) := by
      show filterPVs (passRecy cfg st pod).1 (passByKey st pod) = _
      rw [hpvs2, filterPVs_clear_matched _ _ _ hnd2 hiff,
        filterPVs_map_invariant _ (retainIfTarget_preserves _) st.pvs]
      rfl
    have hrecy2 : passRecy cfg
        (⟨p, st.pvcs, (passRecy cfg st pod).1⟩ : ClusterState) pod =
        ((passRecy cfg st pod).1, [], none) := by
      show recyclePVs cfg.allowRebinding
        (ensureRetainAll (passRecy cfg st pod).1
          (passFP (⟨p, st.pvcs, (passRecy cfg st pod).1⟩ : ClusterState) pod).1)
        (passFP (⟨p, st.pvcs, (passRecy cfg st pod).1⟩ :
          ClusterState) pod).1 = _
      rw [harb, hfp2]
      rfl
    exact passTail_stable_core cfg st pod p _ _ hub hfp2 hrecy2

/-- C5: running the remediation pass twice from the same starting
snapshot yields the same final state as running it once; the second
invocation performs no state change beyond those of the first.  The
snapshot is assumed well-formed: PV object names are unique, as
Kubernetes object names are. -/
theorem c5_remediation_idempotent (cfg : UnbinderConfig) (now : Int)
    (st : ClusterState) (hnd : (st.pvs.map PV.name).Nodup) :
    runPass cfg now (runPass cfg now st) = runPass cfg now st := by
  cases hpod : st.pod with
  | none =>
    have h1 : reconcileUnbinder cfg now st = ⟨st, [], none⟩ := by
      simp only [reconcileUnbinder, hpod]
    show (reconcileUnbinder cfg now (reconcileUnbinder cfg now st).state).state
      = (reconcileUnbinder cfg now st).state
    rw [h1]
    show (reconcileUnbinder cfg now st).state = st
    rw [h1]
  | some pod =>
    by_cases hsr : (shouldRemediate cfg now pod).1 = false ∨
        0 < (shouldRemediate cfg now pod).2
    · have h1 : reconcileUnbinder cfg now st = ⟨st, [], none⟩ := by
        simp only [reconcileUnbinder, hpod]
        rw [if_pos hsr]
      show (reconcileUnbinder cfg now
        (reconcileUnbinder cfg now st).state).state
        = (reconcileUnbinder cfg now st).state
      rw [h1]
      show (reconcileUnbinder cfg now st).state = st
      rw [h1]
    · by_cases hkeys : candidateKeys pod = []
      · have h1 : reconcileUnbinder cfg now st = ⟨st, [], none⟩ := by
          simp only [reconcileUnbinder, hpod]
          rw [if_neg hsr, if_pos hkeys]
        show (reconcileUnbinder cfg now
          (reconcileUnbinder cfg now st).state).state
          = (reconcileUnbinder cfg now st).state
        rw [h1]
        show (reconcileUnbinder cfg now st).state = st
        rw [h1]
      · have h1 : reconcileUnbinder cfg now st = passTail cfg st pod := by
          simp only [reconcileUnbinder, hpod]
          rw [if_neg hsr, if_neg hkeys]
        have hloc : ∀ t ∈ (passFP st pod).1,
            t.hostPath = true ∨ t.localVolume = true :=
          fun t ht =>
            (filterPVs_target_spec st.pvs (passByKey st pod) t ht).2.2.1
        have herr : (passRecy cfg st pod).2.2 = none :=
          recyclePVs_err_none _ hloc _ _
        by_cases hmiss : (passDel st pod).1.any (fun e => e.2.isNone) = true
        · have h2 := passTail_missing cfg st pod herr hmiss
          show (reconcileUnbinder cfg now
            (reconcileUnbinder cfg now st).state).state
            = (reconcileUnbinder cfg now st).state
          rw [h1, h2]
          show (reconcileUnbinder cfg now
            (⟨none, (passDel st pod).2.1, (passRecy cfg st pod).1⟩ :
              ClusterState)).state =
            (⟨none, (passDel st pod).2.1, (passRecy cfg st pod).1⟩ :
              ClusterState)
          simp only [reconcileUnbinder]
        · have h2 := passTail_not_missing cfg st pod herr hmiss
          obtain ⟨hdel_eq, hub⟩ := deleteBoundPVCs_no_missing (passFP st pod).2
            st.pvcs (Bool.eq_false_iff.mpr hmiss)
          have hdelproj : (passDel st pod).2.1 = st.pvcs := by
            show (deleteBoundPVCs (passFP st pod).2 st.pvcs).2.1 = st.pvcs
            rw [hdel_eq]
          show (reconcileUnbinder cfg now
            (reconcileUnbinder cfg now st).state).state
            = (reconcileUnbinder cfg now st).state
          rw [h1, h2]
          show (reconcileUnbinder cfg now
            (⟨st.pod, (passDel st pod).2.1, (passRecy cfg st pod).1⟩ :
              ClusterState)).state =
            (⟨st.pod, (passDel st pod).2.1, (passRecy cfg st pod).1⟩ :
              ClusterState)
          rw [hdelproj, hpod]
          simp only [reconcileUnbinder]
          rw [if_neg hsr, if_neg hkeys]
          exact passTail_stable cfg st pod (some pod) hnd hub

theorem c5_remediation_idempotent_witness :
    ((exampleStateFull.pvs.map PV.name).Nodup) ∧
    runPass exampleCfg 1200 (runPass exampleCfg 1200 exampleStateFull) =
      runPass exampleCfg 1200 exampleStateFull :=
  ⟨by decide,
    c5_remediation_idempotent exampleCfg 1200 exampleStateFull (by decide)⟩

/-!
Part B: the RedpandaReconciler (operator/internal/controller/redpanda/
redpanda_controller.go).  The store is the persisted Redpanda object;
external reads (StatefulSet and Deployment lists, the applied
HelmRepository and HelmRelease state, the admin health query, the chart
render, the GC listings) are supplied through environment records, with
Except values for fallible calls.  Store writes (apply patches, the
finalizer update, the status patch) succeed unless the environment
injects an error; condition messages assembled from replica details are
abstracted to fixed strings, as no claim depends on their content.
-/

/-- A status condition of the Redpanda resource: status (true = ready),
reason, message. -/
structure RpCondition where
  condStatus : Bool
  reason : String
  message : String
deriving DecidableEq

/-- rp.Spec.ChartRef, restricted to the fields the controller reads. -/
structure ChartRef where
  useFlux : Option Bool
  chartVersion : String
deriving DecidableEq

/-- rp.Status, restricted to the fields the controller reads or writes. -/
structure RpStatus where
  observedGeneration : Int
  helmRelease : String
  helmRepository : String
  helmReleaseReady : Option Bool
  helmRepositoryReady : Option Bool
  readyCondition : Option RpCondition
deriving DecidableEq

/-- The Redpanda cluster resource. -/
structure Redpanda where
  name : String
  ns : String
  uid : String
  generation : Int
  deleting : Bool
  annos : List (String × String)
  finalizers : List String
  chartRef : ChartRef
  status : RpStatus
deriving DecidableEq

/-- Modelled from the spec: v1alpha2.RedpandaNotReady is not under src/
(only its call sites are).  Per the spec, user-visible failures surface
as status conditions with machine-readable reason strings and fixed
messages; the helper sets the Ready condition to False with the given
reason and message. -/
def redpandaNotReady (rp : Redpanda) (reason msg : String) : Redpanda :=
  { rp with status :=
    { rp.status with readyCondition := some ⟨false, reason, msg⟩ } }

/-- Modelled from the spec: v1alpha2.RedpandaReady is not under src/.
It sets the Ready condition to True. -/
def redpandaReady (rp : Redpanda) : Redpanda :=
  { rp with status :=
    { rp.status with
      readyCondition := some ⟨true, "RedpandaClusterDeployed", ""⟩ } }

/-- Whether the cluster reports ready: the Ready condition is present
with status True. -/
def reportsReady (rp : Redpanda) : Bool :=
  match rp.status.readyCondition with
  | some c => c.condStatus
  | none => false

/-- appsv1.StatefulSet, restricted to spec.replicas and the replica
counts of its status. -/
structure StatefulSetObj where
  name : String
  ns : String
  replicas : Option Int
  updatedReplicas : Int
  availableReplicas : Int
  readyReplicas : Int
deriving DecidableEq

/-- appsv1.Deployment, restricted the same way. -/
structure DeploymentObj where
  name : String
  ns : String
  replicas : Option Int
  updatedReplicas : Int
  availableReplicas : Int
  readyReplicas : Int
deriving DecidableEq

/-- checkReplicasForList: every item must have updated, available and
ready counts equal to the desired total; the assembled message is
abstracted away. -/
def checkReplicasForList (extract : α → Int × Int × Int × Int)
    (list : List α) : Bool :=
  list.all fun item =>
    let e := extract item
    (e.1 == e.2.2.2) && (e.2.1 == e.2.2.2) && (e.2.2.1 == e.2.2.2)

/-- checkStatefulSetStatus over the cluster StatefulSets. -/
def checkStatefulSetStatus (ss : List StatefulSetObj) : Bool :=
  checkReplicasForList (fun o =>
    (o.updatedReplicas, o.availableReplicas, o.readyReplicas,
      o.replicas.getD 0)) ss

/-- checkDeploymentsStatus over the console Deployments. -/
def checkDeploymentsStatus (ds : List DeploymentObj) : Bool :=
  checkReplicasForList (fun o =>
    (o.updatedReplicas, o.availableReplicas, o.readyReplicas,
      o.replicas.getD 0)) ds

/-- The summed desired replicas over the StatefulSets, as accumulated in
needsDecommission. -/
def desiredReplicasSum (stses : List StatefulSetObj) : Int :=
  stses.foldl (fun acc sts => acc + sts.replicas.getD 0) 0

/-- RedpandaReconciler.needsDecommission after the health query: false
when there are no live members or no desired replicas, else live-member
count strictly above the summed desired replicas. -/
def needsDecommission (allNodes : List Int) (stses : List StatefulSetObj) :
    Bool :=
  let desired := desiredReplicasSum stses
  if allNodes.length == 0 || desired == 0 then false
  else decide ((allNodes.length : Int) > desired)

/-- Observed state of an applied companion object (HelmRepository or
HelmRelease) after the server-side apply: metadata generation, status
observed generation, and its Ready (and, for releases, Remediated)
status conditions. -/
structure FluxObjState where
  generation : Int
  observedGeneration : Int
  readyCondition : Bool
  remediatedCondition : Bool
deriving DecidableEq

/-- The ready = "%s '%s/%s' is ready" and not-ready formats. -/
def resourceNotReadyMsg (resource ns name : String) : String :=
  resource ++ " \x27" ++ ns ++ "/" ++ name ++ "\x27 is not ready"

/-- RedpandaReconciler.reconcileHelmRepository: apply the templated
repository (suspended when UseFlux is false), then record readiness:
generation current and Ready condition true, both forced when
suspended. -/
def reconcileHelmRepository (rp : Redpanda) (repo : FluxObjState) : Redpanda :=
  let suspend := !(rp.chartRef.useFlux.getD true)
  let isGenerationCurrent := repo.generation == repo.observedGeneration
  let isStatusConditionReady := repo.readyCondition
  let isGenerationCurrent := if suspend then true else isGenerationCurrent
  let isStatusConditionReady := if suspend then true else isStatusConditionReady
  { rp with status := { rp.status with
      helmRepository := rp.name,
      helmRepositoryReady := some (isStatusConditionReady && isGenerationCurrent) } }

/-- RedpandaReconciler.reconcileHelmRelease: apply the templated release
(suspended when UseFlux is false), then record readiness: generation
current and (Ready or Remediated) condition true, both forced when
suspended. -/
def reconcileHelmRelease (rp : Redpanda) (hr : FluxObjState) : Redpanda :=
  let suspend := !(rp.chartRef.useFlux.getD true)
  let isGenerationCurrent := hr.generation == hr.observedGeneration
  let isStatusConditionReady := hr.readyCondition || hr.remediatedCondition
  let isGenerationCurrent := if suspend then true else isGenerationCurrent
  let isStatusConditionReady := if suspend then true else isStatusConditionReady
  { rp with status := { rp.status with
      helmRelease := rp.name,
      helmReleaseReady := some (isGenerationCurrent && isStatusConditionReady) } }

deriving instance DecidableEq for Except

/-- Environment of the readiness phase RedpandaReconciler.reconcile:
results of the StatefulSet and Deployment lists, the applied companion
states, and the admin health query (its AllNodes member ids). -/
structure ReadinessEnv where
  stses : Except String (List StatefulSetObj)
  deployments : Except String (List DeploymentObj)
  repo : FluxObjState
  release : FluxObjState
  health : Except String (List Int)
deriving DecidableEq

/-- RedpandaReconciler.reconcile: list workloads, reconcile the
HelmRepository and HelmRelease and gate on their readiness, require at
least one StatefulSet, require converged replica counts, then the
decommission gate; finally report ready.  Returns the updated resource
and an error, if any. -/
def reconcilePhase (rp : Redpanda) (env : ReadinessEnv) :
    Redpanda × Option String :=
  match env.stses with
  | .error e => (rp, some e)
  | .ok redpandaStatefulSets =>
    match env.deployments with
    | .error e => (rp, some e)
    | .ok consoleDeployments =>
      let rp1 := reconcileHelmRepository rp env.repo
      if (rp1.status.helmRepositoryReady.getD false) = false then
        (redpandaNotReady rp1 "ArtifactFailed"
          (resourceNotReadyMsg "HelmRepository" rp1.ns rp1.name), none)
      else
        let rp2 := reconcileHelmRelease rp1 env.release
        if (rp2.status.helmReleaseReady.getD false) = false then
          (redpandaNotReady rp2 "ArtifactFailed"
            (resourceNotReadyMsg "HelmRelease" rp2.ns rp2.name), none)
        else if redpandaStatefulSets.length == 0 then
          (redpandaNotReady rp2 "RedpandaPodsNotReady"
            "Redpanda StatefulSet not yet created", none)
        else if checkStatefulSetStatus redpandaStatefulSets = false then
          (redpandaNotReady rp2 "RedpandaPodsNotReady"
            "Not all StatefulSet replicas updated, available, and ready", none)
        else if checkDeploymentsStatus consoleDeployments = false then
          (redpandaNotReady rp2 "ConsolePodsNotReady"
            "Not all Deployment replicas updated, available, and ready", none)
        else
          match env.health with
          | .error e => (rp2, some e)
          | .ok allNodes =>
            if needsDecommission allNodes redpandaStatefulSets then
              (redpandaNotReady rp2 "RedpandaPodsNotReady"
                "Cluster currently decommissioning dead nodes", none)
            else (redpandaReady rp2, none)

/-- A rendered chart object: group-version-kind, key metadata, labels,
annotations and owner references. -/
structure ChartObj where
  gvk : String
  name : String
  ns : String
  labels : List (String × String)
  annos : List (String × String)
  ownerUIDs : List String
deriving DecidableEq

/-- The (kind, namespaced-name) key recorded into the expected set. -/
structure GvkKey where
  gvk : String
  ns : String
  name : String
deriving DecidableEq

def chartObjKey (o : ChartObj) : GvkKey := ⟨o.gvk, o.ns, o.name⟩

/-- Per-object preparation inside the apply loop: force the namespace to
the cluster namespace, set the owner reference to the cluster, and stamp
the flux release-identity label and annotation pairs. -/
def prepareObj (rp : Redpanda) (obj : ChartObj) : ChartObj :=
  { obj with
    ns := rp.ns,
    ownerUIDs := [rp.uid],
    labels := obj.labels ++
      [("helm.toolkit.fluxcd.io/name", rp.name),
        ("helm.toolkit.fluxcd.io/namespace", rp.ns)],
    annos := obj.annos ++
      [("meta.helm.sh/release-name", rp.name),
        ("meta.helm.sh/release-namespace", rp.ns)] }

/-- One-shot helm hook artifacts are skipped, not applied. -/
def hasHelmHook (obj : ChartObj) : Bool :=
  obj.annos.any fun kv => kv.1 == "helm.sh/hook"

/-- The apply loop over the rendered objects: prepare each object, skip
hooks, apply the rest (infallibly in this model) and return them in
order; the expected set is their keys. -/
def applyLoop (rp : Redpanda) (objs : List ChartObj) : List ChartObj :=
  objs.filterMap fun obj =>
    let prepared := prepareObj rp obj
    if hasHelmHook prepared then none else some prepared

/-- A live object returned by a GC listing (it carried the
release-identity labels, which the list call selected on). -/
structure GCObj where
  gvk : String
  name : String
  ns : String
  ownerUIDs : List String
deriving DecidableEq

def gcObjKey (o : GCObj) : GvkKey := ⟨o.gvk, o.ns, o.name⟩

/-- RedpandaReconciler.reconcileDefluxGC over the listings of every known
child kind: a none listing models an unknown kind (IsNoMatchError),
skipped; a listed object is collected for deletion only when its key is
not in the expected set and it carries an owner reference with the
cluster UID. -/
def reconcileDefluxGC (rpUID : String) (created : List GvkKey) :
    List (Option (List GCObj)) → List GCObj
  | [] => []
  | none :: rest => reconcileDefluxGC rpUID created rest
  | some objs :: rest =>
    objs.filter (fun obj =>
      !(created.any fun k => k == gcObjKey obj) &&
        (obj.ownerUIDs.any fun u => u == rpUID)) ++
      reconcileDefluxGC rpUID created rest

/-- Environment of the de-fluxed sync: the chart render result and the
per-kind GC listings. -/
structure DefluxEnv where
  render : Except String (List ChartObj)
  listed : List (Option (List GCObj))
deriving DecidableEq

/-- Result of one de-fluxed sync: the updated resource, the applied
objects, the garbage-collected objects, and an error, if any. -/
structure DefluxOut where
  rp : Redpanda
  applied : List ChartObj
  deleted : List GCObj
  err : Option String
deriving DecidableEq

/-- The fixed-format chartVersion rejection message. -/
def chartRefUnsupportedMsg (desired got : String) : String :=
  ".spec.chartRef.chartVersion needs to be \"" ++ desired ++
    "\" or \"\". got \"" ++ got ++ "\""

/-- RedpandaReconciler.reconcileDefluxed: skip when UseFlux (default
true); reject unsupported pinned chart versions with a not-ready
condition and reason ChartRefUnsupported, returning nil error; render;
apply each non-hook object, recording its key; skip garbage collection
when the observed generation is current and non-zero; otherwise garbage
collect. -/
def reconcileDefluxed (desiredChartVersion : String) (rp : Redpanda)
    (env : DefluxEnv) : DefluxOut :=
  if rp.chartRef.useFlux.getD true then ⟨rp, [], [], none⟩
  else
    let chartVersion := rp.chartRef.chartVersion
    if !(chartVersion == "" || chartVersion == desiredChartVersion) then
      ⟨redpandaNotReady rp "ChartRefUnsupported"
          (chartRefUnsupportedMsg desiredChartVersion chartVersion),
        [], [], none⟩
    else
      match env.render with
      | .error e => ⟨rp, [], [], some e⟩
      | .ok objs =>
        let applied := applyLoop rp objs
        let created := applied.map chartObjKey
        if rp.generation == rp.status.observedGeneration &&
            !(rp.generation == 0) then
          ⟨rp, applied, [], none⟩
        else
          ⟨rp, applied, reconcileDefluxGC rp.uid created env.listed, none⟩

/-- operator.redpanda.com/finalizer. -/
def finalizerKey : String := "operator.redpanda.com/finalizer"

/-- GroupVersion.Group + managedPath. -/
def managedAnnotationKey : String := "cluster.redpanda.com/managed"

/-- Modelled from the spec: resources.ManagedDecommissionAnnotation is
not under src/; only its presence is consulted, never its value. -/
def managedDecommissionAnnotationKey : String :=
  "operator.redpanda.com/managed-decommission"

def getAnno (annos : List (String × String)) (k : String) : Option String :=
  (annos.find? fun kv => kv.1 == k).map (fun kv => kv.2)

/-- isRedpandaManaged: management is disabled only by the managed
annotation set to the string false. -/
def isRedpandaManaged (rp : Redpanda) : Bool :=
  !(rp.annos.any fun kv => kv.1 == managedAnnotationKey && kv.2 == "false")

def removeFinalizer (rp : Redpanda) : Redpanda :=
  { rp with finalizers := rp.finalizers.filter fun f => !(f == finalizerKey) }

def addFinalizer (rp : Redpanda) : Redpanda :=
  if rp.finalizers.any (fun f => f == finalizerKey) then rp
  else { rp with finalizers := rp.finalizers ++ [finalizerKey] }

/-- Environment of one top-level pass. -/
structure TopEnv where
  readiness : ReadinessEnv
  deflux : DefluxEnv
  releaseExists : Bool
  patchStatusErr : Option String
deriving DecidableEq

/-- Result of one top-level pass: the persisted object and the returned
error.  The controller always returns an empty ctrl.Result, so the
driver requeues exactly when the error is non-nil. -/
structure TopOut where
  store : Redpanda
  err : Option String
deriving DecidableEq

/-- RedpandaReconciler.reconcileDelete with deleteHelmRelease folded in:
nothing recorded in status means done; a still-existing release is
deleted (foreground) and the pass returns the wait error without
touching the finalizer; otherwise the finalizer is removed.  The
in-memory clearing of status fields on not-found is not persisted (the
finalizer update does not write the status subresource). -/
def reconcileDelete (rp : Redpanda) (env : TopEnv) : TopOut :=
  if rp.status.helmRelease == "" then ⟨removeFinalizer rp, none⟩
  else if env.releaseExists then ⟨rp, some "wait for helm release deletion"⟩
  else ⟨removeFinalizer rp, none⟩

/-- RedpandaReconciler.Reconcile: deletion path, managed gate, managed
decommission gate, finalizer registration, the readiness phase, the
de-fluxed sync, then observed-generation advance and the status patch.
The store reflects the finalizer update immediately; the status is
persisted only by the final status patch. -/
def reconcileTop (desiredChartVersion : String) (rp : Redpanda)
    (env : TopEnv) : TopOut :=
  if rp.deleting then reconcileDelete rp env
  else if isRedpandaManaged rp = false then ⟨removeFinalizer rp, none⟩
  else if (getAnno rp.annos managedDecommissionAnnotationKey).isSome then
    ⟨rp, none⟩
  else
    let rpF := addFinalizer rp
    let phase := reconcilePhase rpF env.readiness
    match phase.2 with
    | some e => ⟨rpF, some e⟩
    | none =>
      let dout := reconcileDefluxed desiredChartVersion phase.1 env.deflux
      match dout.err with
      | some e => ⟨rpF, some e⟩
      | none =>
        let rp2 := { dout.rp with status :=
          { dout.rp.status with observedGeneration := dout.rp.generation } }
        match env.patchStatusErr with
        | some e => ⟨rpF, some e⟩
        | none => ⟨{ rpF with status := rp2.status }, none⟩

/-! ### Field-preservation lemmas for the phases -/

theorem addFinalizer_preserves (rp : Redpanda) :
    (addFinalizer rp).status = rp.status ∧
    (addFinalizer rp).generation = rp.generation ∧
    (addFinalizer rp).chartRef = rp.chartRef := by
  rw [addFinalizer]
  split <;> exact ⟨rfl, rfl, rfl⟩

theorem reconcilePhase_preserves (rp : Redpanda) (env : ReadinessEnv) :
    (reconcilePhase rp env).1.generation = rp.generation ∧
    (reconcilePhase rp env).1.chartRef = rp.chartRef ∧
    (reconcilePhase rp env).1.uid = rp.uid := by
  simp only [reconcilePhase]
  repeat' split
  all_goals exact ⟨rfl, rfl, rfl⟩

theorem reconcileDefluxed_preserves (d : String) (rp : Redpanda)
    (env : DefluxEnv) :
    (reconcileDefluxed d rp env).rp.generation = rp.generation := by
  simp only [reconcileDefluxed]
  repeat' split
  all_goals rfl

/-! ### Claim C3: soundness of the de-fluxed garbage collection -/

theorem reconcileDefluxGC_spec (rpUID : String) (created : List GvkKey) :
    ∀ (listed : List (Option (List GCObj))) (o : GCObj),
      o ∈ reconcileDefluxGC rpUID created listed →
      (created.any fun k => k == gcObjKey o) = false ∧
      (o.ownerUIDs.any fun u => u == rpUID) = true := by
  intro listed
  induction listed with
  | nil => intro o ho; simp [reconcileDefluxGC] at ho
  | cons x rest ih =>
    intro o ho
    cases x with
    | none =>
      rw [reconcileDefluxGC] at ho
      exact ih o ho
    | some objs =>
      rw [reconcileDefluxGC] at ho
      rcases List.mem_append.mp ho with hhead | htail
      · have hcond := List.of_mem_filter hhead
        simp only [Bool.and_eq_true, Bool.not_eq_true'] at hcond
        exact hcond
      · exact ih o htail

/-- C3: during a de-fluxed sync, a listed object is deleted only when its
kind and namespaced-name key is absent from the expected set recorded by
the apply loop of the same pass AND it carries an owner reference with
the cluster UID; consequently nothing applied in the pass is deleted by
the pass. -/
theorem c3_gc_soundness (d : String) (rp : Redpanda) (env : DefluxEnv)
    (o : GCObj) (ho : o ∈ (reconcileDefluxed d rp env).deleted) :
    gcObjKey o ∉ ((reconcileDefluxed d rp env).applied.map chartObjKey) ∧
    (o.ownerUIDs.any fun u => u == rp.uid) = true := by
  revert ho
  simp only [reconcileDefluxed]
  repeat' split
  · intro ho; simp at ho
  · intro ho; simp at ho
  · intro ho; simp at ho
  · intro ho; simp at ho
  · intro ho
    obtain ⟨hnc, howned⟩ := reconcileDefluxGC_spec rp.uid _ env.listed o ho
    refine ⟨?_, howned⟩
    intro hmem
    have := List.any_eq_false.mp hnc _ hmem
    simp at this

/-- Concrete de-fluxed sync input: one rendered Secret is applied, and
one stale owned ConfigMap shows up in the listings. -/
def exampleRpStatus : RpStatus :=
  { observedGeneration := 2, helmRelease := "", helmRepository := "",
    helmReleaseReady := none, helmRepositoryReady := none,
    readyCondition := none }

def exampleRp : Redpanda :=
  { name := "rp", ns := "team-a", uid := "uid-1", generation := 4,
    deleting := false, annos := [], finalizers := [],
    chartRef := { useFlux := some false, chartVersion := "" },
    status := exampleRpStatus }

def exampleRenderedSecret : ChartObj :=
  { gvk := "v1/Secret", name := "rp-users", ns := "", labels := [],
    annos := [], ownerUIDs := [] }

def exampleOrphan : GCObj :=
  { gvk := "v1/ConfigMap", name := "rp-old", ns := "team-a",
    ownerUIDs := ["uid-1"] }

def exampleForeign : GCObj :=
  { gvk := "v1/ConfigMap", name := "other", ns := "team-a",
    ownerUIDs := ["uid-9"] }

def exampleDefluxEnv : DefluxEnv :=
  { render := Except.ok [exampleRenderedSecret],
    listed := [none, some [exampleOrphan, exampleForeign]] }

theorem c3_gc_soundness_witness :
    exampleOrphan ∈
      (reconcileDefluxed "5.9.x" exampleRp exampleDefluxEnv).deleted ∧
    gcObjKey exampleOrphan ∉
      ((reconcileDefluxed "5.9.x" exampleRp exampleDefluxEnv).applied.map
        chartObjKey) ∧
    (exampleOrphan.ownerUIDs.any fun u => u == exampleRp.uid) = true := by
  have h := c3_gc_soundness "5.9.x" exampleRp exampleDefluxEnv
    exampleOrphan (by decide)
  exact ⟨by decide, h.1, h.2⟩

/-! ### Claim C8: generation-current passes skip garbage collection -/

/-- C8 as stated fails: with generation 0 equal to observed generation 0,
the generation-current check is defeated by the non-zero guard and the
pass still garbage-collects an orphan. -/
def exampleRpGenZero : Redpanda :=
  { exampleRp with
    generation := 0
    status := { exampleRpStatus with observedGeneration := 0 } }

/-- C8 counterexample: a cluster at generation 0 with observed
generation 0 has the two equal, yet the pass still deletes an orphan:
the skip is additionally guarded on a non-zero generation. -/
theorem c8_counterexample :
    exampleRpGenZero.status.observedGeneration =
      exampleRpGenZero.generation ∧
    (reconcileDefluxed "5.9.x" exampleRpGenZero exampleDefluxEnv).deleted ≠
      [] := by
  constructor
  · decide
  · decide

/-- C8 amended: a pass whose observed generation equals the current
generation performs zero deletions, provided the generation is non-zero
(the code additionally guards on Generation not being 0). -/
theorem c8_amended_gc_skip (d : String) (rp : Redpanda) (env : DefluxEnv)
    (hgen : rp.status.observedGeneration = rp.generation)
    (hnz : rp.generation ≠ 0) :
    (reconcileDefluxed d rp env).deleted = [] := by
  simp only [reconcileDefluxed]
  repeat' split
  · rfl
  · rfl
  · rfl
  · rfl
  · rename_i hcond
    exfalso
    apply hcond
    simp [hgen, hnz]

theorem c8_amended_gc_skip_witness :
    (reconcileDefluxed "5.9.x"
      { exampleRp with status :=
        { exampleRp.status with observedGeneration := 4 } }
      exampleDefluxEnv).deleted = [] :=
  c8_amended_gc_skip "5.9.x" _ exampleDefluxEnv (by decide) (by decide)

/-! ### Claim C4: cluster readiness aggregation -/

theorem reportsReady_notReady (rp : Redpanda) (r m : String) :
    reportsReady (redpandaNotReady rp r m) = false := rfl

theorem reportsReady_ready (rp : Redpanda) :
    reportsReady (redpandaReady rp) = true := rfl

theorem optGetD_false_some_true {o : Option Bool}
    (h : o.getD false = true) : o = some true := by
  cases o with
  | none => exact absurd h (by simp [Option.getD])
  | some b =>
    simp only [Option.getD] at h
    rw [h]

theorem bool_true_of_ne_false {b : Bool} (h : ¬(b = false)) : b = true := by
  rcases Bool.eq_false_or_eq_true b with h1 | h1
  · exact h1
  · exact absurd h1 h

/-- C4 amended: with an error-free pass, (a) the cluster reports ready
only when both companions report ready, at least one StatefulSet exists,
every StatefulSet and console Deployment has converged replica counts,
and the decommission gate is clear; and (b) whenever the live-member
count strictly exceeds the positive summed desired replicas, readiness
is withheld. -/
theorem c4_amended_readiness (rp : Redpanda) (env : ReadinessEnv)
    (hok : (reconcilePhase rp env).2 = none) :
    (reportsReady (reconcilePhase rp env).1 = true →
      ∃ stses deployments allNodes,
        env.stses = Except.ok stses ∧
        env.deployments = Except.ok deployments ∧
        env.health = Except.ok allNodes ∧
        (reconcilePhase rp env).1.status.helmRepositoryReady = some true ∧
        (reconcilePhase rp env).1.status.helmReleaseReady = some true ∧
        stses ≠ [] ∧
        checkStatefulSetStatus stses = true ∧
        checkDeploymentsStatus deployments = true ∧
        needsDecommission allNodes stses = false) ∧
    (∀ stses allNodes, env.stses = Except.ok stses →
      env.health = Except.ok allNodes →
      0 < desiredReplicasSum stses →
      desiredReplicasSum stses < (allNodes.length : Int) →
      reportsReady (reconcilePhase rp env).1 = false) := by
  obtain ⟨stE, depE, repo, release, healthE⟩ := env
  constructor
  · intro hready
    cases stE with
    | error e => simp [reconcilePhase] at hok
    | ok stses =>
      cases depE with
      | error e => simp [reconcilePhase] at hok
      | ok deployments =>
        cases healthE with
        | error e =>
          exfalso
          simp only [reconcilePhase] at hok hready
          by_cases hrepo : ((reconcileHelmRepository rp
              repo).status.helmRepositoryReady.getD false) = false
          · rw [if_pos hrepo] at hready
            simp [reportsReady, redpandaNotReady] at hready
          · rw [if_neg hrepo] at hok hready
            by_cases hrel : ((reconcileHelmRelease (reconcileHelmRepository
                rp repo) release).status.helmReleaseReady.getD false) = false
            · rw [if_pos hrel] at hready
              simp [reportsReady, redpandaNotReady] at hready
            · rw [if_neg hrel] at hok hready
              by_cases hlen : (stses.length == 0) = true
              · rw [if_pos hlen] at hready
                simp [reportsReady, redpandaNotReady] at hready
              · rw [if_neg hlen] at hok hready
                by_cases hsts : checkStatefulSetStatus stses = false
                · rw [if_pos hsts] at hready
                  simp [reportsReady, redpandaNotReady] at hready
                · rw [if_neg hsts] at hok hready
                  by_cases hcon : checkDeploymentsStatus deployments = false
                  · rw [if_pos hcon] at hready
                    simp [reportsReady, redpandaNotReady] at hready
                  · rw [if_neg hcon] at hok
                    simp at hok
        | ok allNodes =>
          simp only [reconcilePhase] at hready ⊢
          by_cases hrepo : ((reconcileHelmRepository rp
              repo).status.helmRepositoryReady.getD false) = false
          · rw [if_pos hrepo] at hready
            simp [reportsReady, redpandaNotReady] at hready
          · rw [if_neg hrepo] at hready ⊢
            by_cases hrel : ((reconcileHelmRelease (reconcileHelmRepository
                rp repo) release).status.helmReleaseReady.getD false) = false
            · rw [if_pos hrel] at hready
              simp [reportsReady, redpandaNotReady] at hready
            · rw [if_neg hrel] at hready ⊢
              by_cases hlen : (stses.length == 0) = true
              · rw [if_pos hlen] at hready
                simp [reportsReady, redpandaNotReady] at hready
              · rw [if_neg hlen] at hready ⊢
                by_cases hsts : checkStatefulSetStatus stses = false
                · rw [if_pos hsts] at hready
                  simp [reportsReady, redpandaNotReady] at hready
                · rw [if_neg hsts] at hready ⊢
                  by_cases hcon : checkDeploymentsStatus deployments = false
                  · rw [if_pos hcon] at hready
                    simp [reportsReady, redpandaNotReady] at hready
                  · rw [if_neg hcon] at hready ⊢
                    by_cases hdec : needsDecommission allNodes stses = true
                    · rw [if_pos hdec] at hready
                      simp [reportsReady, redpandaNotReady] at hready
                    · rw [if_neg hdec]
                      refine ⟨stses, deployments, allNodes, rfl, rfl, rfl,
                        ?_, ?_, ?_, ?_, ?_, ?_⟩
                      · exact optGetD_false_some_true
                          (bool_true_of_ne_false hrepo)
                      · exact optGetD_false_some_true
                          (bool_true_of_ne_false hrel)
                      · intro hnil
                        subst hnil
                        simp at hlen
                      · exact bool_true_of_ne_false hsts
                      · exact bool_true_of_ne_false hcon
                      · rcases Bool.eq_false_or_eq_true
                            (needsDecommission allNodes stses) with h | h
                        · exact absurd h hdec
                        · exact h
  · intro stses allNodes hst hh hpos hgt
    replace hst : stE = Except.ok stses := hst
    replace hh : healthE = Except.ok allNodes := hh
    subst hst
    subst hh
    cases depE with
    | error e => simp [reconcilePhase] at hok
    | ok deployments =>
      simp only [reconcilePhase] at hok ⊢
      by_cases hrepo : ((reconcileHelmRepository rp
          repo).status.helmRepositoryReady.getD false) = false
      · rw [if_pos hrepo]
        exact reportsReady_notReady _ _ _
      · rw [if_neg hrepo]
        by_cases hrel : ((reconcileHelmRelease (reconcileHelmRepository rp
            repo) release).status.helmReleaseReady.getD false) = false
        · rw [if_pos hrel]
          exact reportsReady_notReady _ _ _
        · rw [if_neg hrel]
          by_cases hlen : (stses.length == 0) = true
          · rw [if_pos hlen]
            exact reportsReady_notReady _ _ _
          · rw [if_neg hlen]
            by_cases hsts : checkStatefulSetStatus stses = false
            · rw [if_pos hsts]
              exact reportsReady_notReady _ _ _
            · rw [if_neg hsts]
              by_cases hcon : checkDeploymentsStatus deployments = false
              · rw [if_pos hcon]
                exact reportsReady_notReady _ _ _
              · rw [if_neg hcon]
                have hdec : needsDecommission allNodes stses = true := by
                  simp only [needsDecommission]
                  have hlen0 : (allNodes.length == 0) = false := by
                    rw [beq_eq_false_iff_ne]
                    intro h0
                    rw [h0] at hgt
                    simp only [Nat.cast_zero] at hgt
                    omega
                  have hdes0 : (desiredReplicasSum stses == 0) = false := by
                    rw [beq_eq_false_iff_ne]
                    omega
                  rw [hlen0, hdes0]
                  simp only [Bool.or_self, Bool.false_eq_true, if_false]
                  exact decide_eq_true hgt
                rw [if_pos hdec]
                exact reportsReady_notReady _ _ _

def exampleFluxC4 : FluxObjState :=
  { generation := 1, observedGeneration := 1, readyCondition := true,
    remediatedCondition := false }

def exampleRpC4 : Redpanda :=
  { name := "rp4", ns := "team-b", uid := "uid-4", generation := 3,
    deleting := false, annos := [], finalizers := [],
    chartRef := { useFlux := some false, chartVersion := "" },
    status := exampleRpStatus }

def exampleStsZero : StatefulSetObj :=
  { name := "rp4", ns := "team-b", replicas := some 0,
    updatedReplicas := 0, availableReplicas := 0, readyReplicas := 0 }

def exampleEnvZero : ReadinessEnv :=
  { stses := Except.ok [exampleStsZero], deployments := Except.ok [],
    repo := exampleFluxC4, release := exampleFluxC4,
    health := Except.ok [7] }

/-- C4 counterexample: a cluster whose single StatefulSet desires zero
replicas, with one live member reported by the admin health query.  The
live-member count (1) exceeds the summed desired replicas (0), yet the
readiness pass completes without error and reports ready: the
decommission gate short-circuits to false when the desired sum is zero,
so readiness is not withheld. -/
theorem c4_counterexample :
    exampleEnvZero.health = Except.ok [7] ∧
    exampleEnvZero.stses = Except.ok [exampleStsZero] ∧
    desiredReplicasSum [exampleStsZero] < (([(7 : Int)]).length : Int) ∧
    (reconcilePhase exampleRpC4 exampleEnvZero).2 = none ∧
    reportsReady (reconcilePhase exampleRpC4 exampleEnvZero).1 = true := by
  refine ⟨by decide, by decide, by decide, by decide, by decide⟩

def exampleStsThree : StatefulSetObj :=
  { name := "rp4", ns := "team-b", replicas := some 3,
    updatedReplicas := 3, availableReplicas := 3, readyReplicas := 3 }

def exampleEnvFive : ReadinessEnv :=
  { stses := Except.ok [exampleStsThree], deployments := Except.ok [],
    repo := exampleFluxC4, release := exampleFluxC4,
    health := Except.ok [1, 2, 3, 4, 5] }

/-- Witness for the amended C4: with three desired replicas and five
live members, readiness is withheld. -/
theorem c4_amended_witness :
    reportsReady (reconcilePhase exampleRpC4 exampleEnvFive).1 = false :=
  (c4_amended_readiness exampleRpC4 exampleEnvFive (by decide)).2
    [exampleStsThree] [1, 2, 3, 4, 5] (by decide) (by decide) (by decide)
    (by decide)

/-- C9: observed generation is persisted as the current generation only
on a pass where the readiness phase and the de-fluxed sync both return
without error (and the final status patch succeeds); any pass that
returns an error leaves the stored observed generation unchanged. -/
theorem c9_observed_generation (d : String) (rp : Redpanda) (env : TopEnv) :
    ((reconcileTop d rp env).err.isSome →
      (reconcileTop d rp env).store.status.observedGeneration =
        rp.status.observedGeneration) ∧
    ((reconcileTop d rp env).store.status.observedGeneration ≠
        rp.status.observedGeneration →
      (reconcileTop d rp env).err = none ∧
      (reconcileTop d rp env).store.status.observedGeneration =
        rp.generation ∧
      (reconcilePhase (addFinalizer rp) env.readiness).2 = none ∧
      (reconcileDefluxed d (reconcilePhase (addFinalizer rp)
        env.readiness).1 env.deflux).err = none) := by
  obtain ⟨hs, hg, hcr⟩ := addFinalizer_preserves rp
  obtain ⟨hpg, hpc, hpu⟩ :=
    reconcilePhase_preserves (addFinalizer rp) env.readiness
  have hdg := reconcileDefluxed_preserves d
    (reconcilePhase (addFinalizer rp) env.readiness).1 env.deflux
  have hsg : (addFinalizer rp).status.observedGeneration =
      rp.status.observedGeneration := by rw [hs]
  simp only [reconcileTop]
  by_cases hdel : rp.deleting = true
  · rw [if_pos hdel]
    simp only [reconcileDelete]
    by_cases h1 : (rp.status.helmRelease == "") = true
    · rw [if_pos h1]
      constructor
      · intro h
        exact absurd (show (none : Option String).isSome = true from h)
          (by decide)
      · intro hne
        exact absurd rfl hne
    · rw [if_neg h1]
      by_cases h2 : env.releaseExists = true
      · rw [if_pos h2]
        constructor
        · intro _
          rfl
        · intro hne
          exact absurd rfl hne
      · rw [if_neg h2]
        constructor
        · intro h
          exact absurd (show (none : Option String).isSome = true from h)
            (by decide)
        · intro hne
          exact absurd rfl hne
  · rw [if_neg hdel]
    by_cases hman : isRedpandaManaged rp = false
    · rw [if_pos hman]
      constructor
      · intro h
        exact absurd (show (none : Option String).isSome = true from h)
          (by decide)
      · intro hne
        exact absurd rfl hne
    · rw [if_neg hman]
      by_cases hanno :
          (getAnno rp.annos managedDecommissionAnnotationKey).isSome = true
      · rw [if_pos hanno]
        constructor
        · intro h
          exact absurd (show (none : Option String).isSome = true from h)
            (by decide)
        · intro hne
          exact absurd rfl hne
      · rw [if_neg hanno]
        cases hp2 : (reconcilePhase (addFinalizer rp) env.readiness).2 with
        | some e =>
          constructor
          · intro _
            exact hsg
          · intro hne
            exact absurd hsg hne
        | none =>
          cases hd : (reconcileDefluxed d (reconcilePhase (addFinalizer rp)
              env.readiness).1 env.deflux).err with
          | some e =>
            constructor
            · intro _
              exact hsg
            · intro hne
              exact absurd hsg hne
          | none =>
            cases hpe : env.patchStatusErr with
            | some e =>
              constructor
              · intro _
                exact hsg
              · intro hne
                exact absurd hsg hne
            | none =>
              constructor
              · intro h
                exact absurd
                  (show (none : Option String).isSome = true from h)
                  (by decide)
              · intro hne
                refine ⟨rfl, ?_, rfl, rfl⟩
                show (reconcileDefluxed d (reconcilePhase (addFinalizer rp)
                  env.readiness).1 env.deflux).rp.generation = rp.generation
                rw [hdg, hpg, hg]

def exampleReadinessEnvErr : ReadinessEnv :=
  { stses := Except.error "list statefulsets: boom",
    deployments := Except.ok [], repo := exampleFluxC4,
    release := exampleFluxC4, health := Except.ok [] }

def exampleDefluxEnvEmpty : DefluxEnv :=
  { render := Except.ok [], listed := [] }

def exampleTopEnvErr : TopEnv :=
  { readiness := exampleReadinessEnvErr,
    deflux := exampleDefluxEnvEmpty,
    releaseExists := false, patchStatusErr := none }

/-- Witness for C9: a pass whose workload listing fails leaves the
stored observed generation unchanged. -/
theorem c9_observed_generation_witness :
    (reconcileTop "5.9.x" exampleRpC4
        exampleTopEnvErr).store.status.observedGeneration =
      exampleRpC4.status.observedGeneration :=
  (c9_observed_generation "5.9.x" exampleRpC4 exampleTopEnvErr).1 (by decide)

/-- C10: with UseFlux false and a pinned chartVersion that is neither
empty nor the supported version, an otherwise error-free pass applies
nothing, garbage-collects nothing, returns no error (so nothing is
requeued), persists the ChartRefUnsupported not-ready condition, and
still advances the observed generation to the current generation. -/
theorem c10_chart_ref_unsupported (d : String) (rp : Redpanda)
    (env : TopEnv)
    (hdel : rp.deleting = false)
    (hman : isRedpandaManaged rp = true)
    (hanno : (getAnno rp.annos
      managedDecommissionAnnotationKey).isSome = false)
    (huf : rp.chartRef.useFlux = some false)
    (hv1 : (rp.chartRef.chartVersion == "") = false)
    (hv2 : (rp.chartRef.chartVersion == d) = false)
    (hphase : (reconcilePhase (addFinalizer rp) env.readiness).2 = none)
    (hpatch : env.patchStatusErr = none) :
    (reconcileDefluxed d (reconcilePhase (addFinalizer rp)
      env.readiness).1 env.deflux).applied = [] ∧
    (reconcileDefluxed d (reconcilePhase (addFinalizer rp)
      env.readiness).1 env.deflux).deleted = [] ∧
    (reconcileDefluxed d (reconcilePhase (addFinalizer rp)
      env.readiness).1 env.deflux).err = none ∧
    (reconcileTop d rp env).err = none ∧
    (reconcileTop d rp env).store.status.observedGeneration =
      rp.generation ∧
    (reconcileTop d rp env).store.status.readyCondition =
      some ⟨false, "ChartRefUnsupported",
        chartRefUnsupportedMsg d rp.chartRef.chartVersion⟩ := by
  obtain ⟨hs, hg, hcr⟩ := addFinalizer_preserves rp
  obtain ⟨hpg, hpc, hpu⟩ :=
    reconcilePhase_preserves (addFinalizer rp) env.readiness
  have hcref : (reconcilePhase (addFinalizer rp)
      env.readiness).1.chartRef = rp.chartRef := hpc.trans hcr
  have hdout : reconcileDefluxed d (reconcilePhase (addFinalizer rp)
      env.readiness).1 env.deflux =
      ⟨redpandaNotReady (reconcilePhase (addFinalizer rp) env.readiness).1
          "ChartRefUnsupported"
          (chartRefUnsupportedMsg d rp.chartRef.chartVersion),
        [], [], none⟩ := by
    simp only [reconcileDefluxed, hcref, huf, Option.getD_some,
      Bool.false_eq_true, if_false, hv1, hv2, Bool.or_self, Bool.not_false,
      if_true]
  refine ⟨?_, ?_, ?_, ?_, ?_, ?_⟩
  · rw [hdout]
  · rw [hdout]
  · rw [hdout]
  · simp only [reconcileTop, hdel, hman, hanno, Bool.false_eq_true,
      Bool.true_eq_false, if_false, hphase, hdout, hpatch]
  · simp only [reconcileTop, hdel, hman, hanno, Bool.false_eq_true,
      Bool.true_eq_false, if_false, hphase, hdout, hpatch]
    show (reconcilePhase (addFinalizer rp) env.readiness).1.generation =
      rp.generation
    rw [hpg, hg]
  · simp only [reconcileTop, hdel, hman, hanno, Bool.false_eq_true,
      Bool.true_eq_false, if_false, hphase, hdout, hpatch]
    rfl

def exampleRpC10 : Redpanda :=
  { exampleRpC4 with
    chartRef := { useFlux := some false, chartVersion := "9.9.9" } }

def exampleTopEnvC10 : TopEnv :=
  { readiness := exampleEnvZero,
    deflux := exampleDefluxEnvEmpty,
    releaseExists := false, patchStatusErr := none }

/-- Witness for C10 at a cluster pinning chartVersion 9.9.9 against the
supported 5.9.x. -/
theorem c10_chart_ref_unsupported_witness :
    (reconcileDefluxed "5.9.x" (reconcilePhase (addFinalizer exampleRpC10)
      exampleTopEnvC10.readiness).1 exampleTopEnvC10.deflux).applied = [] ∧
    (reconcileDefluxed "5.9.x" (reconcilePhase (addFinalizer exampleRpC10)
      exampleTopEnvC10.readiness).1 exampleTopEnvC10.deflux).deleted = [] ∧
    (reconcileDefluxed "5.9.x" (reconcilePhase (addFinalizer exampleRpC10)
      exampleTopEnvC10.readiness).1 exampleTopEnvC10.deflux).err = none ∧
    (reconcileTop "5.9.x" exampleRpC10 exampleTopEnvC10).err = none ∧
    (reconcileTop "5.9.x" exampleRpC10
      exampleTopEnvC10).store.status.observedGeneration =
      exampleRpC10.generation ∧
    (reconcileTop "5.9.x" exampleRpC10
      exampleTopEnvC10).store.status.readyCondition =
      some ⟨false, "ChartRefUnsupported",
        chartRefUnsupportedMsg "5.9.x" exampleRpC10.chartRef.chartVersion⟩ :=
  c10_chart_ref_unsupported "5.9.x" exampleRpC10 exampleTopEnvC10
    (by decide) (by decide) (by decide) (by decide) (by decide) (by decide)
    (by decide) (by decide)
